import Mathlib

/-!
Verification development for the finance-dashboard repository.

The development shallowly embeds the CSV bank-statement importer
(src/utils/pkoImport.ts), the manual remapping path (src/pages/BankImport.tsx),
the budget aggregation and advice engine (src/utils/advisor.ts,
src/utils/currency.ts) and the export/import layer (src/utils/index.ts).

Strings are embedded as lists of characters (`Chars`), JavaScript numbers as
rationals (`ℚ`), and fallible parses as `Option`.  JavaScript's `parseFloat`
is modelled for finite decimal/exponent literals (the `Infinity` literal is
mapped to `none`; no claim depends on it and both duplicated code paths use
the same model).  `JSON.stringify`/`JSON.parse` are modelled at the level of
the JSON value tree: the text layer is the JSON library's own round-trip,
external to the repository.
-/

set_option maxRecDepth 4000

/-- Character-level string representation used throughout the embedding. -/
abbrev Chars := List Char

/-- Whitespace class of JavaScript's regex `\s` (restricted to the common
whitespace code points; sufficient for the bank-CSV inputs). -/
def isWS (c : Char) : Bool :=
  c.toNat = 32 || c.toNat = 9 || c.toNat = 10 || c.toNat = 13 ||
  c.toNat = 11 || c.toNat = 12 || c.toNat = 160

/-- Decimal digit test, JavaScript regex `\d`. -/
def isDigitCh (c : Char) : Bool :=
  48 ≤ c.toNat && c.toNat ≤ 57

/-- Model of `String.prototype.trim`: drop whitespace at both ends. -/
def trimChars (l : Chars) : Chars :=
  ((l.dropWhile (fun c => isWS c)).reverse.dropWhile (fun c => isWS c)).reverse

/-- Model of `.replace(/\s/g, '')`: remove every whitespace character. -/
def removeWS (l : Chars) : Chars :=
  l.filter (fun c => !isWS c)

/-- Lower-casing of a single character as done by `String.prototype.toLowerCase`
(ASCII letters plus the non-ASCII letters that occur in this repository). -/
def jsToLowerChar (c : Char) : Char :=
  if 65 ≤ c.toNat ∧ c.toNat ≤ 90 then Char.ofNat (c.toNat + 32)
  else if c = 'Ż' then 'ż'
  else if c = 'Ó' then 'ó'
  else if c = 'Ł' then 'ł'
  else if c = 'Ś' then 'ś'
  else if c = 'Ą' then 'ą'
  else if c = 'Ę' then 'ę'
  else if c = 'Ć' then 'ć'
  else if c = 'Ń' then 'ń'
  else if c = 'Ź' then 'ź'
  else if c = 'Å' then 'å'
  else c

/-- Model of `String.prototype.toLowerCase`. -/
def jsToLower (l : Chars) : Chars := l.map jsToLowerChar

/-- Upper-casing of a single character as done by `String.prototype.toUpperCase`
(ASCII letters plus the non-ASCII letters that occur in this repository). -/
def jsToUpperChar (c : Char) : Char :=
  if 97 ≤ c.toNat ∧ c.toNat ≤ 122 then Char.ofNat (c.toNat - 32)
  else if c = 'ż' then 'Ż'
  else if c = 'ó' then 'Ó'
  else if c = 'ł' then 'Ł'
  else if c = 'ś' then 'Ś'
  else if c = 'ą' then 'Ą'
  else if c = 'ę' then 'Ę'
  else if c = 'ć' then 'Ć'
  else if c = 'ń' then 'Ń'
  else if c = 'ź' then 'Ź'
  else c

/-- Model of `String.prototype.toUpperCase`. -/
def jsToUpper (l : Chars) : Chars := l.map jsToUpperChar

/-- Does the first list start with the second one (character-wise)? -/
def startsWithChars : Chars → Chars → Bool
  | _, [] => true
  | [], _ :: _ => false
  | a :: as, b :: bs => a = b && startsWithChars as bs

/-- Model of `String.prototype.includes`: substring containment. -/
def containsSub (hay needle : Chars) : Bool :=
  startsWithChars hay needle ||
    match hay with
    | [] => false
    | _ :: t => containsSub t needle

/-- Model of `String.prototype.includes` for a single character. -/
def containsChar : Chars → Char → Bool
  | [], _ => false
  | c :: cs, d => c = d || containsChar cs d

/-- Model of `.replace(/c/g, '')` for a single character `c`. -/
def removeAllChar (l : Chars) (c : Char) : Chars :=
  l.filter (fun d => d != c)

/-- Model of `String.prototype.replace` with a plain one-character pattern:
replaces only the first occurrence. -/
def replaceFirstChar : Chars → Char → Char → Chars
  | [], _, _ => []
  | c :: cs, a, b => if c = a then b :: cs else c :: replaceFirstChar cs a b

/-- Numeric value of a decimal digit character. -/
def digitVal (c : Char) : Nat := c.toNat - 48

/-- Value of a list of decimal digit characters read most-significant first. -/
def digitsToNat (l : Chars) : Nat :=
  l.foldl (fun a c => 10 * a + digitVal c) 0

/-- Optional leading sign of a JavaScript numeric literal; returns
(is-negative, rest). -/
def readSign (l : Chars) : Bool × Chars :=
  match l with
  | [] => (false, [])
  | c :: r =>
    if c = '-' then (true, r)
    else if c = '+' then (false, r)
    else (false, c :: r)

/-- Power of ten as a rational, written first-order so that concrete values
reduce inside the kernel. -/
def pow10 : Nat → ℚ
  | 0 => 1
  | n + 1 => pow10 n * 10

/-- Power of ten with an integer exponent (used for the exponent part of a
JavaScript numeric literal). -/
def pow10Int (e : Int) : ℚ :=
  if 0 ≤ e then pow10 e.toNat else 1 / pow10 (-e).toNat

/-- Optional exponent part of a JavaScript numeric literal; an `e`/`E` is
consumed only when actual digits follow. -/
def readExpPart (l : Chars) : Int :=
  match l with
  | 'e' :: r | 'E' :: r =>
    let s := readSign r
    let ds := s.2.takeWhile isDigitCh
    if ds.isEmpty then 0
    else if s.1 then -(digitsToNat ds : Int) else (digitsToNat ds : Int)
  | _ => 0

/-- Model of JavaScript's global `parseFloat` on finite decimal notation:
skip leading whitespace, optional sign, integer digits, optional fraction,
optional exponent; the longest valid numeric prefix is used and `none`
stands for `NaN` (no digits at all). -/
def jsParseFloat (s : Chars) : Option ℚ :=
  let s1 := s.dropWhile (fun c => isWS c)
  let sg := readSign s1
  let ip := sg.2.takeWhile isDigitCh
  let s3 := sg.2.dropWhile isDigitCh
  let fr : Chars × Chars :=
    match s3 with
    | '.' :: r => (r.takeWhile isDigitCh, r.dropWhile isDigitCh)
    | _ => ([], s3)
  if ip.isEmpty && fr.1.isEmpty then none
  else
    let mant : ℚ := (digitsToNat ip : ℚ) + (digitsToNat fr.1 : ℚ) / pow10 fr.1.length
    let e := readExpPart fr.2
    some ((if sg.1 then -mant else mant) * pow10Int e)

/-- Embedding of `parsePKOAmount` (src/utils/pkoImport.ts): strip whitespace,
resolve comma/dot separators, then parse. -/
def parsePKOAmount (raw : Chars) : Option ℚ :=
  let cleaned := removeWS (trimChars raw)
  let cleaned2 :=
    if containsChar cleaned ',' && containsChar cleaned '.' then
      replaceFirstChar (removeAllChar cleaned '.') ',' '.'
    else if containsChar cleaned ',' then
      replaceFirstChar cleaned ',' '.'
    else cleaned
  jsParseFloat cleaned2

/-- Date separator class (dot, dash or slash) used by the date regexes in
`parseDate`. -/
def isDateSep (c : Char) : Bool :=
  c = '.' || c = '-' || c = '/'

/-- Match of the already-canonical date shape: four digits, dash, two digits,
dash, two digits, anchored at both ends. -/
def isCanonicalDate (l : Chars) : Bool :=
  match l with
  | [y1, y2, y3, y4, '-', m1, m2, '-', d1, d2] =>
    isDigitCh y1 && isDigitCh y2 && isDigitCh y3 && isDigitCh y4 &&
    isDigitCh m1 && isDigitCh m2 && isDigitCh d1 && isDigitCh d2
  | _ => false

/-- Match of the day-first date shape (two digits, separator, two digits,
separator, four digits, each separator independently a dot, dash or slash)
together with the rearrangement into canonical order. -/
def matchDayFirst (l : Chars) : Option Chars :=
  match l with
  | [d1, d2, s1, m1, m2, s2, y1, y2, y3, y4] =>
    if isDigitCh d1 && isDigitCh d2 && isDateSep s1 && isDigitCh m1 &&
        isDigitCh m2 && isDateSep s2 && isDigitCh y1 && isDigitCh y2 &&
        isDigitCh y3 && isDigitCh y4 then
      some [y1, y2, y3, y4, '-', m1, m2, '-', d1, d2]
    else none
  | _ => none

/-- Match of the year-first date shape (four digits, separator, two digits,
separator, two digits) together with the normalization of the separators to
a dash. -/
def matchYearFirst (l : Chars) : Option Chars :=
  match l with
  | [y1, y2, y3, y4, s1, m1, m2, s2, d1, d2] =>
    if isDigitCh y1 && isDigitCh y2 && isDigitCh y3 && isDigitCh y4 &&
        isDateSep s1 && isDigitCh m1 && isDigitCh m2 && isDateSep s2 &&
        isDigitCh d1 && isDigitCh d2 then
      some [y1, y2, y3, y4, '-', m1, m2, '-', d1, d2]
    else none
  | _ => none

/-- Embedding of `parseDate` (src/utils/pkoImport.ts). -/
def parseDate (raw : Chars) : Chars :=
  let t := trimChars raw
  if isCanonicalDate t then t
  else
    match matchDayFirst t with
    | some r => r
    | none =>
      match matchYearFirst t with
      | some r => r
      | none => t

example : parsePKOAmount ("1234,56").data = some ((123456 : ℚ) / 100) := by
  with_unfolding_all rfl
example : parsePKOAmount ("1 234,56").data = some ((123456 : ℚ) / 100) := by
  with_unfolding_all rfl
example : parsePKOAmount ("1.234,56").data = some ((123456 : ℚ) / 100) := by
  with_unfolding_all rfl
example : parsePKOAmount ("-50.00").data = some (-50 : ℚ) := by
  with_unfolding_all rfl
example : parseDate ("15.01.2025").data = ("2025-01-15").data := by decide
example : parseDate ("15/01/2025").data = ("2025-01-15").data := by decide

/-- Transaction kind (TS union `'income' | 'expense'`). -/
inductive TxType where
  | income
  | expense
deriving DecidableEq, Repr

/-- Supported currencies (TS union `'USD' | 'PLN'`). -/
inductive Currency where
  | USD
  | PLN
deriving DecidableEq, Repr

/-- The fixed category enumeration of src/types/index.ts: the thirteen expense
categories followed by the six income categories. -/
inductive Category where
  | Housing
  | Transportation
  | Food
  | Utilities
  | Healthcare
  | Insurance
  | Entertainment
  | Shopping
  | Education
  | Personal
  | Subscriptions
  | DebtPayment
  | Other
  | Salary
  | Freelance
  | Investment
  | Rental
  | Gift
  | OtherIncome
deriving DecidableEq, Repr

/-- Embedding of the ordered `CATEGORY_KEYWORDS` table of
src/utils/pkoImport.ts; the pair order is the object-literal insertion order,
which is the iteration order of `Object.entries`. -/
def CATEGORY_KEYWORDS : List (Chars × Category) :=
  [(("czynsz").data, Category.Housing),
   (("wynajem").data, Category.Housing),
   (("mieszkanie").data, Category.Housing),
   (("rent").data, Category.Housing),
   (("mortgage").data, Category.Housing),
   (("hipoteka").data, Category.Housing),
   (("biedronka").data, Category.Food),
   (("lidl").data, Category.Food),
   (("żabka").data, Category.Food),
   (("zabka").data, Category.Food),
   (("auchan").data, Category.Food),
   (("carrefour").data, Category.Food),
   (("kaufland").data, Category.Food),
   (("stokrotka").data, Category.Food),
   (("netto").data, Category.Food),
   (("restaurant").data, Category.Food),
   (("restauracja").data, Category.Food),
   (("mcdonalds").data, Category.Food),
   (("kfc").data, Category.Food),
   (("uber eats").data, Category.Food),
   (("glovo").data, Category.Food),
   (("bolt food").data, Category.Food),
   (("pyszne").data, Category.Food),
   (("uber").data, Category.Transportation),
   (("bolt").data, Category.Transportation),
   (("orlen").data, Category.Transportation),
   (("bp").data, Category.Transportation),
   (("shell").data, Category.Transportation),
   (("paliwo").data, Category.Transportation),
   (("mpk").data, Category.Transportation),
   (("ztm").data, Category.Transportation),
   (("koleje").data, Category.Transportation),
   (("pkp").data, Category.Transportation),
   (("flixbus").data, Category.Transportation),
   (("parking").data, Category.Transportation),
   (("pge").data, Category.Utilities),
   (("tauron").data, Category.Utilities),
   (("enea").data, Category.Utilities),
   (("energa").data, Category.Utilities),
   (("wodociągi").data, Category.Utilities),
   (("wodociagi").data, Category.Utilities),
   (("internet").data, Category.Utilities),
   (("orange").data, Category.Utilities),
   (("play").data, Category.Utilities),
   (("t-mobile").data, Category.Utilities),
   (("plus").data, Category.Utilities),
   (("netflix").data, Category.Entertainment),
   (("spotify").data, Category.Entertainment),
   (("hbo").data, Category.Entertainment),
   (("disney").data, Category.Entertainment),
   (("cinema").data, Category.Entertainment),
   (("kino").data, Category.Entertainment),
   (("multikino").data, Category.Entertainment),
   (("helios").data, Category.Entertainment),
   (("allegro").data, Category.Shopping),
   (("amazon").data, Category.Shopping),
   (("zalando").data, Category.Shopping),
   (("mediamarkt").data, Category.Shopping),
   (("media markt").data, Category.Shopping),
   (("rtv euro").data, Category.Shopping),
   (("ikea").data, Category.Shopping),
   (("decathlon").data, Category.Shopping),
   (("rossmann").data, Category.Shopping),
   (("hebe").data, Category.Shopping),
   (("apteka").data, Category.Healthcare),
   (("pharmacy").data, Category.Healthcare),
   (("lekarz").data, Category.Healthcare),
   (("doctor").data, Category.Healthcare),
   (("medicover").data, Category.Healthcare),
   (("luxmed").data, Category.Healthcare),
   (("enel-med").data, Category.Healthcare),
   (("ubezpieczenie").data, Category.Insurance),
   (("pzu").data, Category.Insurance),
   (("warta").data, Category.Insurance),
   (("ergo hestia").data, Category.Insurance),
   (("uczelnia").data, Category.Education),
   (("szkoła").data, Category.Education),
   (("kurs").data, Category.Education),
   (("udemy").data, Category.Education),
   (("coursera").data, Category.Education),
   (("subskrypcja").data, Category.Subscriptions),
   (("subscription").data, Category.Subscriptions),
   (("apple").data, Category.Subscriptions),
   (("google storage").data, Category.Subscriptions),
   (("youtube premium").data, Category.Subscriptions),
   (("wynagrodzenie").data, Category.Salary),
   (("przelew z tytulu wynagrodzenia").data, Category.Salary),
   (("salary").data, Category.Salary),
   (("pensja").data, Category.Salary)]

/-- First matching keyword of an ordered keyword table wins. -/
def findKeyword (lower : Chars) : List (Chars × Category) → Category
  | [] => .Other
  | (kw, cat) :: rest =>
    if containsSub lower kw then cat else findKeyword lower rest

/-- Embedding of `detectCategory` (src/utils/pkoImport.ts). -/
def detectCategory (description : Chars) : Category :=
  findKeyword (jsToLower description) CATEGORY_KEYWORDS

/-- JavaScript `Array.prototype.indexOf` on a list of strings, returning -1
when absent. -/
def idxOfChars (l : List Chars) (x : Chars) : Int :=
  match l.findIdx? (fun h => h == x) with
  | some i => (i : Int)
  | none => -1

/-- First candidate with a hit wins, scanning the candidate names in listed
priority order. -/
def findFirstIdx (normalized : List Chars) : List Chars → Int
  | [] => -1
  | c :: rest =>
    let idx := idxOfChars normalized c
    if idx ≠ -1 then idx else findFirstIdx normalized rest

/-- Embedding of `findColumnIndex` (src/utils/pkoImport.ts). -/
def findColumnIndex (headers : List Chars) (candidates : List Chars) : Int :=
  findFirstIdx (headers.map (fun h => jsToLower (trimChars h))) candidates

/-- Header-name variants of the `PKO_COLUMNS` table used for auto-mapping. -/
def pkoDateColumns : List Chars :=
  [("data operacji").data, ("data transakcji").data, ("data księgowania").data]

/-- Amount header-name variants of `PKO_COLUMNS`. -/
def pkoAmountColumns : List Chars :=
  [("kwota").data, ("kwota transakcji").data]

/-- Description header-name variants of `PKO_COLUMNS`. -/
def pkoDescriptionColumns : List Chars :=
  [("opis transakcji").data, ("tytuł").data, ("tytul").data,
   ("tytuł transakcji").data]

/-- Currency header-name variants of `PKO_COLUMNS`. -/
def pkoCurrencyColumns : List Chars :=
  [("waluta").data]

/-- Counterparty header-name variants of `PKO_COLUMNS`. -/
def pkoCounterpartyColumns : List Chars :=
  [("nadawca / odbiorca").data, ("nadawca/odbiorca").data,
   ("nazwa kontrahenta").data, ("kontrahent").data]

/-- Embedding of the `ColumnMapping` interface; indices are JavaScript numbers
and may be -1 (field not present). -/
structure ColumnMapping where
  date : Int
  amount : Int
  description : Int
  currency : Int
  counterparty : Int
deriving DecidableEq, Repr

/-- Embedding of the `ParsedBankTransaction` interface. -/
structure ParsedBankTransaction where
  date : Chars
  amount : ℚ
  description : Chars
  currency : Currency
  counterparty : Chars
  suggestedCategory : Category
  suggestedType : TxType
  raw : List Chars
deriving DecidableEq, Repr

/-- Embedding of the `ParseResult` interface. -/
structure ParseResult where
  headers : List Chars
  transactions : List ParsedBankTransaction
  autoMapped : Bool
  mapping : ColumnMapping
deriving DecidableEq, Repr

/-- The candidate delimiter list of `detectDelimiter`, in source order. -/
def csvDelimiters : List Char := [',', ';', '\t', '|']

/-- Length of `line.split(d)` for a one-character separator: one more than the
number of occurrences. -/
def splitCount (line : Chars) (d : Char) : Nat :=
  line.count d + 1

/-- Embedding of `detectDelimiter` (src/utils/pkoImport.ts): best-so-far scan
with strict improvement, starting from comma with count 0. -/
def detectDelimiter (firstLine : Chars) : Char :=
  (csvDelimiters.foldl
    (fun acc d =>
      let count := splitCount firstLine d
      if count > acc.2 then (d, count) else acc)
    (',', 0)).1

/-- Embedding of the character loop of `parseCSVLine`: `current` is the field
accumulator and `inQuotes` the quoting state; a doubled quote inside quotes is
an escaped literal quote, and the delimiter splits only outside quotes. -/
def parseCSVLineGo (delimiter : Char) : Chars → Bool → Chars → List Chars
  | [], _, current => [trimChars current]
  | '"' :: '"' :: rest, true, current =>
    parseCSVLineGo delimiter rest true (current ++ ['"'])
  | '"' :: rest, inQuotes, current =>
    parseCSVLineGo delimiter rest (!inQuotes) current
  | c :: rest, inQuotes, current =>
    if c = delimiter && !inQuotes then
      trimChars current :: parseCSVLineGo delimiter rest inQuotes []
    else
      parseCSVLineGo delimiter rest inQuotes (current ++ [c])

/-- Embedding of `parseCSVLine` (src/utils/pkoImport.ts). -/
def parseCSVLine (line : Chars) (delimiter : Char) : List Chars :=
  parseCSVLineGo delimiter line false []

/-- Split of the raw text by newline sequences, as done by the line-splitting
step of `parseCSV` (a carriage return directly before a line feed belongs to
the separator). -/
def jsSplitLines : Chars → List Chars
  | [] => [[]]
  | '\r' :: '\n' :: rest => [] :: jsSplitLines rest
  | '\n' :: rest => [] :: jsSplitLines rest
  | c :: rest =>
    match jsSplitLines rest with
    | [] => [[c]]
    | h :: t => (c :: h) :: t

/-- JavaScript element access `fields[i] || dflt`: out-of-range and empty
strings both fall back to the default. -/
def idxFalsy (l : List Chars) (i : Int) (dflt : Chars) : Chars :=
  if 0 ≤ i then
    match l.get? i.toNat with
    | some v => if v.isEmpty then dflt else v
    | none => dflt
  else dflt

/-- JavaScript element access `fields[i] ?? dflt`: only out-of-range (that is,
`undefined`) falls back to the default; an empty string is kept. -/
def idxNullish (l : List Chars) (i : Int) (dflt : Chars) : Chars :=
  if 0 ≤ i then
    match l.get? i.toNat with
    | some v => v
    | none => dflt
  else dflt

/-- Embedding of the per-row body of the parsing loop of `parseCSV`: skip rows
with fewer than two fields, skip zero or unparsable amounts, then assemble the
normalized transaction. -/
def buildParsedTx (mapping : ColumnMapping) (fields : List Chars) :
    Option ParsedBankTransaction :=
  if fields.length < 2 then none
  else
    let rawAmount := idxFalsy fields mapping.amount ['0']
    match parsePKOAmount rawAmount with
    | none => none
    | some amount =>
      if amount = 0 then none
      else
        let description := idxFalsy fields mapping.description []
        let counterparty :=
          if 0 ≤ mapping.counterparty then idxFalsy fields mapping.counterparty []
          else []
        let fullDesc :=
          if counterparty.isEmpty then description
          else counterparty ++ (" - ").data ++ description
        let rawCurrency :=
          if 0 ≤ mapping.currency then
            jsToUpper (trimChars (idxFalsy fields mapping.currency []))
          else []
        let currency : Currency :=
          if rawCurrency = ("PLN").data then .PLN
          else if rawCurrency = ("USD").data then .USD
          else .PLN
        let isIncome : Bool := amount > 0
        let category := detectCategory fullDesc
        some
          { date := parseDate (idxFalsy fields mapping.date [])
            amount := |amount|
            description := fullDesc.take 200
            currency := currency
            counterparty := counterparty
            suggestedCategory :=
              if isIncome && category == Category.Other then Category.OtherIncome
              else category
            suggestedType := if isIncome then .income else .expense
            raw := fields }

/-- Embedding of `parseCSV` (src/utils/pkoImport.ts). -/
def parseCSV (csvText : Chars) : ParseResult :=
  let lines := (jsSplitLines csvText).filter (fun l => !(trimChars l).isEmpty)
  match lines with
  | [] =>
    { headers := [], transactions := [], autoMapped := false,
      mapping := { date := 0, amount := 1, description := 2, currency := -1, counterparty := -1 } }
  | [_] =>
    { headers := [], transactions := [], autoMapped := false,
      mapping := { date := 0, amount := 1, description := 2, currency := -1, counterparty := -1 } }
  | first :: rest =>
    let delimiter := detectDelimiter first
    let headers := parseCSVLine first delimiter
    let dateIdx := findColumnIndex headers pkoDateColumns
    let amountIdx := findColumnIndex headers pkoAmountColumns
    let descIdx := findColumnIndex headers pkoDescriptionColumns
    let currencyIdx := findColumnIndex headers pkoCurrencyColumns
    let counterpartyIdx := findColumnIndex headers pkoCounterpartyColumns
    let autoMapped := dateIdx != -1 && amountIdx != -1 && descIdx != -1
    let mapping : ColumnMapping :=
      { date := if dateIdx ≠ -1 then dateIdx else 0
        amount := if amountIdx ≠ -1 then amountIdx else 1
        description := if descIdx ≠ -1 then descIdx else 2
        currency := currencyIdx
        counterparty := counterpartyIdx }
    { headers := headers
      transactions := rest.filterMap (fun line => buildParsedTx mapping (parseCSVLine line delimiter))
      autoMapped := autoMapped
      mapping := mapping }

/-- Embedding of `detectCategoryFallback` (src/pages/BankImport.tsx): the
reduced keyword check used by the manual remapping path.  The third Food
keyword is embedded with the exact characters present in the source file
(a mis-encoded variant of the Polish shop name). -/
def detectCategoryFallback (description : Chars) : Category :=
  let lower := jsToLower description
  if containsSub lower ("wynagrodzenie").data || containsSub lower ("salary").data ||
      containsSub lower ("pensja").data then Category.Salary
  else if containsSub lower ("biedronka").data || containsSub lower ("lidl").data ||
      containsSub lower ("\xC5\xBCabka").data || containsSub lower ("restaurant").data ||
      containsSub lower ("mcdonalds").data || containsSub lower ("kfc").data then Category.Food
  else if containsSub lower ("czynsz").data || containsSub lower ("wynajem").data ||
      containsSub lower ("rent").data || containsSub lower ("hipoteka").data then Category.Housing
  else if containsSub lower ("uber").data || containsSub lower ("bolt").data ||
      containsSub lower ("orlen").data || containsSub lower ("paliwo").data ||
      containsSub lower ("pkp").data then Category.Transportation
  else if containsSub lower ("pge").data || containsSub lower ("tauron").data ||
      containsSub lower ("internet").data || containsSub lower ("orange").data then Category.Utilities
  else if containsSub lower ("netflix").data || containsSub lower ("spotify").data ||
      containsSub lower ("kino").data then Category.Entertainment
  else if containsSub lower ("allegro").data || containsSub lower ("amazon").data ||
      containsSub lower ("zalando").data then Category.Shopping
  else if containsSub lower ("apteka").data || containsSub lower ("medicover").data ||
      containsSub lower ("luxmed").data then Category.Healthcare
  else Category.Other

/-- Embedding of `parseDateFallback` (src/pages/BankImport.tsx); the function
body duplicates `parseDate` of src/utils/pkoImport.ts verbatim. -/
def parseDateFallback (raw : Chars) : Chars :=
  let t := trimChars raw
  if isCanonicalDate t then t
  else
    match matchDayFirst t with
    | some r => r
    | none =>
      match matchYearFirst t with
      | some r => r
      | none => t

/-- Embedding of the per-transaction body of `remapTransactions`
(src/pages/BankImport.tsx): re-derive every field from the stored raw row
under the supplied mapping, with the amount-cleaning steps inlined as in the
source. -/
def remapRow (mapping : ColumnMapping) (tx : ParsedBankTransaction) :
    Option ParsedBankTransaction :=
  let raw := tx.raw
  let rawAmount := idxNullish raw mapping.amount ['0']
  let cleaned := removeWS (trimChars rawAmount)
  let cleaned2 :=
    if containsChar cleaned ',' && containsChar cleaned '.' then
      replaceFirstChar (removeAllChar cleaned '.') ',' '.'
    else if containsChar cleaned ',' then
      replaceFirstChar cleaned ',' '.'
    else cleaned
  match jsParseFloat cleaned2 with
  | none => none
  | some amount =>
    if amount = 0 then none
    else
      let description := idxNullish raw mapping.description []
      let counterparty :=
        if 0 ≤ mapping.counterparty then idxNullish raw mapping.counterparty []
        else []
      let fullDesc :=
        if counterparty.isEmpty then description
        else counterparty ++ (" - ").data ++ description
      let rawCurrency :=
        if 0 ≤ mapping.currency then
          jsToUpper (trimChars (idxNullish raw mapping.currency []))
        else []
      let currency : Currency :=
        if rawCurrency = ("PLN").data then .PLN
        else if rawCurrency = ("USD").data then .USD
        else .PLN
      let isIncome : Bool := amount > 0
      let suggestedCategory := detectCategoryFallback fullDesc
      let date := parseDateFallback (idxNullish raw mapping.date [])
      some
        { date := date
          amount := |amount|
          description := fullDesc.take 200
          currency := currency
          counterparty := counterparty
          suggestedCategory :=
            if isIncome && suggestedCategory == Category.Other then Category.OtherIncome
            else suggestedCategory
          suggestedType := if isIncome then .income else .expense
          raw := raw }

/-- Embedding of `remapTransactions` (src/pages/BankImport.tsx): map the
already-parsed transactions through the re-derivation and drop the rows whose
amount no longer parses (the source maps to `null` and filters). -/
def remapTransactions (result : ParseResult) (mapping : ColumnMapping) :
    List ParsedBankTransaction :=
  result.transactions.filterMap (remapRow mapping)

/-- Concrete CSV input whose only data row has the description `Shell`: the
full keyword table categorizes it as Transportation while the fallback table
of the remap path does not know the keyword. -/
def shellCsv : Chars :=
  ("Data operacji,Kwota,Opis transakcji\n2025-01-15,-50.00,Shell").data

/-- Header fields of `shellCsv` after CSV line parsing. -/
def shellHeaderFields : List Chars :=
  [("Data operacji").data, ("Kwota").data, ("Opis transakcji").data]

/-- Data-row fields of `shellCsv` after CSV line parsing. -/
def shellRowFields : List Chars :=
  [("2025-01-15").data, ("-50.00").data, ("Shell").data]

/-- The column mapping auto-detected for `shellCsv`. -/
def shellMapping : ColumnMapping :=
  { date := 0, amount := 1, description := 2, currency := -1, counterparty := -1 }

/-- The transaction `parseCSV` produces for the data row of `shellCsv`. -/
def shellTx : ParsedBankTransaction :=
  { date := ("2025-01-15").data
    amount := 50
    description := ("Shell").data
    currency := .PLN
    counterparty := []
    suggestedCategory := .Transportation
    suggestedType := .expense
    raw := shellRowFields }

/-- The header line of `shellCsv`. -/
def shellHeaderLine : Chars := ("Data operacji,Kwota,Opis transakcji").data

/-- The data line of `shellCsv`. -/
def shellRowLine : Chars := ("2025-01-15,-50.00,Shell").data

lemma shell_lines :
    (jsSplitLines shellCsv).filter (fun l => !(trimChars l).isEmpty) =
      [shellHeaderLine, shellRowLine] := by
  with_unfolding_all rfl

lemma shell_delimiter : detectDelimiter shellHeaderLine = ',' := by
  with_unfolding_all rfl

lemma shell_header_split : parseCSVLine shellHeaderLine ',' = shellHeaderFields := by
  with_unfolding_all rfl

lemma shell_row_split : parseCSVLine shellRowLine ',' = shellRowFields := by
  with_unfolding_all rfl

lemma shell_col_date : findColumnIndex shellHeaderFields pkoDateColumns = 0 := by
  with_unfolding_all rfl

lemma shell_col_amount : findColumnIndex shellHeaderFields pkoAmountColumns = 1 := by
  with_unfolding_all rfl

lemma shell_col_desc : findColumnIndex shellHeaderFields pkoDescriptionColumns = 2 := by
  with_unfolding_all rfl

lemma shell_col_currency : findColumnIndex shellHeaderFields pkoCurrencyColumns = -1 := by
  with_unfolding_all rfl

lemma shell_col_counterparty :
    findColumnIndex shellHeaderFields pkoCounterpartyColumns = -1 := by
  with_unfolding_all rfl

lemma shell_build : buildParsedTx shellMapping shellRowFields = some shellTx := by
  with_unfolding_all rfl

lemma shell_parse :
    parseCSV shellCsv =
      { headers := shellHeaderFields
        transactions := [shellTx]
        autoMapped := true
        mapping := shellMapping } := by
  rw [parseCSV, shell_lines]
  simp only [shell_delimiter, shell_header_split, shell_row_split,
    shell_col_date, shell_col_amount, shell_col_desc, shell_col_currency,
    shell_col_counterparty]
  norm_num
  refine ⟨?_, rfl⟩
  have hm : ColumnMapping.mk 0 1 2 (-1) (-1) = shellMapping := rfl
  rw [hm]
  simp [List.filterMap_cons, shell_row_split, shell_build]

/-- The transaction the remap path produces for the data row of `shellCsv`:
identical to `shellTx` except that the fallback categorizer does not know the
keyword and yields `Other`. -/
def shellTxOther : ParsedBankTransaction :=
  { shellTx with suggestedCategory := Category.Other }

lemma shell_remapRow : remapRow shellMapping shellTx = some shellTxOther := by
  with_unfolding_all rfl

lemma shell_remap :
    remapTransactions (parseCSV shellCsv) (parseCSV shellCsv).mapping =
      [shellTxOther] := by
  rw [shell_parse]
  simp [remapTransactions, List.filterMap_cons, shell_remapRow]

/-- Recurring-interval union of the `Transaction` interface. -/
inductive RecurInterval where
  | weekly
  | monthly
  | yearly
deriving DecidableEq, Repr

/-- Embedding of the persisted `Transaction` entity (src/types/index.ts).
Optional fields are `Option`; an absent `exchangeRateAtTime` signals that the
global rate applies. -/
structure Transaction where
  id : String
  type : TxType
  amount : ℚ
  currency : Currency
  category : Category
  description : String
  date : String
  exchangeRateAtTime : Option ℚ := none
  recurring : Option Bool := none
  recurringInterval : Option RecurInterval := none
deriving DecidableEq, Repr

/-- Embedding of `convertCurrency` (src/utils/currency.ts); the rate is the
USD-to-PLN exchange rate. -/
def convertCurrency (amount : ℚ) (src dst : Currency) (exchangeRate : ℚ) : ℚ :=
  if src = dst then amount
  else if src = Currency.USD ∧ dst = Currency.PLN then amount * exchangeRate
  else if src = Currency.PLN ∧ dst = Currency.USD then amount / exchangeRate
  else amount

/-- Number of days of a calendar month (with the Gregorian leap rule), used to
validate the day field of a date. -/
def daysInMonth (y m : Nat) : Nat :=
  if m = 2 then
    if (y % 4 = 0 ∧ y % 100 ≠ 0) ∨ y % 400 = 0 then 29 else 28
  else if m = 4 ∨ m = 6 ∨ m = 9 ∨ m = 11 then 30
  else 31

/-- Calendar fields read from an ISO `YYYY-MM-DD` date, modelling
`new Date(s).getMonth()` (0-indexed) and `.getFullYear()` for the canonical
dates the data model stores; a non-canonical or invalid date gives `none`
(an invalid JavaScript date compares unequal to every month and year). -/
def jsDateMonthYear (s : String) : Option (Nat × Nat) :=
  match s.data with
  | [y1, y2, y3, y4, '-', m1, m2, '-', d1, d2] =>
    if isDigitCh y1 && isDigitCh y2 && isDigitCh y3 && isDigitCh y4 &&
        isDigitCh m1 && isDigitCh m2 && isDigitCh d1 && isDigitCh d2 then
      let y := digitsToNat [y1, y2, y3, y4]
      let m := digitsToNat [m1, m2]
      let d := digitsToNat [d1, d2]
      if 1 ≤ m ∧ m ≤ 12 ∧ 1 ≤ d ∧ d ≤ daysInMonth y m then some (m - 1, y)
      else none
    else none
  | _ => none

/-- The filter predicate of `getMonthlyBreakdown`: the transaction's date has
the given 0-indexed month and the given year. -/
def inMonth (t : Transaction) (month year : Nat) : Bool :=
  match jsDateMonthYear t.date with
  | some my => my.1 == month && my.2 == year
  | none => false

/-- Embedding of the `BudgetBreakdown` interface (src/utils/advisor.ts). -/
structure BudgetBreakdown where
  totalIncome : ℚ
  totalExpenses : ℚ
  needs : ℚ
  wants : ℚ
  savings : ℚ
  debtPayments : ℚ
  netBalance : ℚ
deriving DecidableEq, Repr

/-- The fixed `NEEDS` category set of src/utils/advisor.ts. -/
def NEEDS : List Category :=
  [.Housing, .Transportation, .Food, .Utilities, .Healthcare, .Insurance]

/-- The fixed `WANTS` category set of src/utils/advisor.ts. -/
def WANTS : List Category :=
  [.Entertainment, .Shopping, .Education, .Personal, .Subscriptions]

/-- Running totals of the aggregation loop of `getMonthlyBreakdown`. -/
structure BreakdownAcc where
  totalIncome : ℚ := 0
  totalExpenses : ℚ := 0
  needs : ℚ := 0
  wants : ℚ := 0
  debtPayments : ℚ := 0
deriving DecidableEq, Repr

/-- One iteration of the aggregation loop of `getMonthlyBreakdown`: convert
with the per-transaction rate when present, then bucket the amount. -/
def breakdownStep (primaryCurrency : Currency) (exchangeRate : ℚ)
    (acc : BreakdownAcc) (t : Transaction) : BreakdownAcc :=
  let rate := t.exchangeRateAtTime.getD exchangeRate
  let amount := convertCurrency t.amount t.currency primaryCurrency rate
  match t.type with
  | .income => { acc with totalIncome := acc.totalIncome + amount }
  | .expense =>
    let acc := { acc with totalExpenses := acc.totalExpenses + amount }
    if t.category = Category.DebtPayment then
      { acc with debtPayments := acc.debtPayments + amount }
    else if t.category ∈ NEEDS then
      { acc with needs := acc.needs + amount }
    else if t.category ∈ WANTS then
      { acc with wants := acc.wants + amount }
    else
      { acc with wants := acc.wants + amount }

/-- Embedding of `getMonthlyBreakdown` (src/utils/advisor.ts): filter the
month window, accumulate, then derive `savings` and `netBalance` as income
minus expenses. -/
def getMonthlyBreakdown (transactions : List Transaction) (month year : Nat)
    (primaryCurrency : Currency) (exchangeRate : ℚ) : BudgetBreakdown :=
  let monthTransactions := transactions.filter (fun t => inMonth t month year)
  let acc := monthTransactions.foldl (breakdownStep primaryCurrency exchangeRate) {}
  { totalIncome := acc.totalIncome
    totalExpenses := acc.totalExpenses
    needs := acc.needs
    wants := acc.wants
    savings := acc.totalIncome - acc.totalExpenses
    debtPayments := acc.debtPayments
    netBalance := acc.totalIncome - acc.totalExpenses }

/-- Advice status union of the `SavingsAdvice` interface. -/
inductive AdviceStatus where
  | excellent
  | good
  | fair
  | needs_attention
deriving DecidableEq, Repr

/-- Embedding of the `SavingsAdvice` interface (src/utils/advisor.ts). -/
structure SavingsAdvice where
  optimalSavingsRate : ℚ
  optimalSavingsAmount : ℚ
  currentSavingsRate : ℚ
  needsPercent : ℚ
  wantsPercent : ℚ
  savingsPercent : ℚ
  status : AdviceStatus
  tips : List String
deriving DecidableEq, Repr

/-- Decimal digits of a natural number. -/
def natDigits (n : Nat) : String :=
  Nat.repr n

/-- Left-pad with zero digits up to the given length. -/
def padZeros (s : String) (len : Nat) : String :=
  if s.length < len then String.mk (List.replicate (len - s.length) '0') ++ s
  else s

/-- Model of `Number.prototype.toFixed`: round to the given number of decimal
places (ties rounded away from zero, a faithful idealization of the
double-precision behaviour for the magnitudes at hand) and render. -/
def jsToFixed (q : ℚ) (digits : Nat) : String :=
  let scaled := q * pow10 digits
  let n : Int := if 0 ≤ scaled then ⌊scaled + 1 / 2⌋ else -⌊1 / 2 - scaled⌋
  let sign : String := if n < 0 then "-" else ""
  let m := n.natAbs
  if digits = 0 then sign ++ natDigits m
  else
    let base := (10 : Nat) ^ digits
    sign ++ natDigits (m / base) ++ "." ++ padZeros (natDigits (m % base)) digits

/-- Embedding of `getSavingsAdvice` (src/utils/advisor.ts). -/
def getSavingsAdvice (breakdown : BudgetBreakdown) : SavingsAdvice :=
  let totalIncome := breakdown.totalIncome
  let needs := breakdown.needs
  let wants := breakdown.wants
  let savings := breakdown.savings
  if totalIncome = 0 then
    { optimalSavingsRate := 20
      optimalSavingsAmount := 0
      currentSavingsRate := 0
      needsPercent := 0
      wantsPercent := 0
      savingsPercent := 0
      status := .needs_attention
      tips := ["Start by tracking your income to get personalized advice."] }
  else
    let needsPercent := needs / totalIncome * 100
    let wantsPercent := wants / totalIncome * 100
    let savingsPercent := savings / totalIncome * 100
    let currentSavingsRate := savingsPercent
    let optimalRate : ℚ :=
      if breakdown.debtPayments > 0 then
        max 10 (20 - breakdown.debtPayments / totalIncome * 100)
      else 20
    let st :=
      if savingsPercent ≥ 20 then
        (AdviceStatus.excellent,
          ["You\x27re saving 20%+ of your income. Keep it up!"] ++
            (if needsPercent > 50 then
              ["Your needs spending is above 50%. See if you can reduce housing or transportation costs."]
            else []))
      else if savingsPercent ≥ 10 then
        (AdviceStatus.good,
          ["You\x27re saving " ++ jsToFixed savingsPercent 1 ++
            "%. Try to reach 20% for optimal financial health."] ++
            (if wantsPercent > 30 then
              ["Consider cutting back on wants - entertainment, shopping, or subscriptions."]
            else []))
      else if savingsPercent ≥ 0 then
        (AdviceStatus.fair,
          ["You\x27re breaking even or barely saving. Look for areas to cut expenses."] ++
            (if needsPercent > 60 then
              ["Your essential expenses are high. Consider cheaper alternatives for housing or transport."]
            else []) ++
            (if wantsPercent > 30 then
              ["Reduce discretionary spending to boost your savings rate."]
            else []))
      else
        (AdviceStatus.needs_attention,
          ["You\x27re spending more than you earn. This needs immediate attention.",
            "Prioritize cutting non-essential expenses first."] ++
            (if wantsPercent > 20 then
              ["Cut wants spending by " ++
                jsToFixed ((wantsPercent - 20) * totalIncome / 100) 0 ++
                " to start saving."]
            else []))
    { optimalSavingsRate := optimalRate
      optimalSavingsAmount := totalIncome * optimalRate / 100
      currentSavingsRate := currentSavingsRate
      needsPercent := needsPercent
      wantsPercent := wantsPercent
      savingsPercent := savingsPercent
      status := st.1
      tips := st.2 }

/-- JSON value tree.  `JSON.stringify` of an object serializes the own
enumerable properties in insertion order and omits `undefined`-valued fields,
so an object is a list of key/value pairs and an optional field is simply
absent. -/
inductive Json where
  | null : Json
  | bool : Bool → Json
  | num : ℚ → Json
  | str : String → Json
  | arr : List Json → Json
  | obj : List (String × Json) → Json

/-- JavaScript truthiness of a field-access result: `undefined` (absent),
`null`, `false`, `0` and the empty string are falsy. -/
def jsTruthy : Option Json → Bool
  | none => false
  | some Json.null => false
  | some (Json.bool b) => b
  | some (Json.num q) => q != 0
  | some (Json.str s) => !s.isEmpty
  | some (Json.arr _) => true
  | some (Json.obj _) => true

/-- The category names as persisted (src/types/index.ts category unions). -/
def categoryName : Category → String
  | .Housing => "Housing"
  | .Transportation => "Transportation"
  | .Food => "Food"
  | .Utilities => "Utilities"
  | .Healthcare => "Healthcare"
  | .Insurance => "Insurance"
  | .Entertainment => "Entertainment"
  | .Shopping => "Shopping"
  | .Education => "Education"
  | .Personal => "Personal"
  | .Subscriptions => "Subscriptions"
  | .DebtPayment => "Debt Payment"
  | .Other => "Other"
  | .Salary => "Salary"
  | .Freelance => "Freelance"
  | .Investment => "Investment"
  | .Rental => "Rental"
  | .Gift => "Gift"
  | .OtherIncome => "Other Income"

/-- Reading a persisted category name back. -/
def categoryOfName (s : String) : Option Category :=
  if s = "Housing" then some .Housing
  else if s = "Transportation" then some .Transportation
  else if s = "Food" then some .Food
  else if s = "Utilities" then some .Utilities
  else if s = "Healthcare" then some .Healthcare
  else if s = "Insurance" then some .Insurance
  else if s = "Entertainment" then some .Entertainment
  else if s = "Shopping" then some .Shopping
  else if s = "Education" then some .Education
  else if s = "Personal" then some .Personal
  else if s = "Subscriptions" then some .Subscriptions
  else if s = "Debt Payment" then some .DebtPayment
  else if s = "Other" then some .Other
  else if s = "Salary" then some .Salary
  else if s = "Freelance" then some .Freelance
  else if s = "Investment" then some .Investment
  else if s = "Rental" then some .Rental
  else if s = "Gift" then some .Gift
  else if s = "Other Income" then some .OtherIncome
  else none

/-- The persisted name of a recurring interval. -/
def recurName : RecurInterval → String
  | .weekly => "weekly"
  | .monthly => "monthly"
  | .yearly => "yearly"

/-- Reading a persisted recurring interval back. -/
def recurOfName (s : String) : Option RecurInterval :=
  if s = "weekly" then some .weekly
  else if s = "monthly" then some .monthly
  else if s = "yearly" then some .yearly
  else none

/-- The persisted name of a currency. -/
def currencyName : Currency → String
  | .USD => "USD"
  | .PLN => "PLN"

/-- Reading a persisted currency back. -/
def currencyOfName (s : String) : Option Currency :=
  if s = "USD" then some .USD
  else if s = "PLN" then some .PLN
  else none

/-- The persisted name of a transaction type. -/
def txTypeName : TxType → String
  | .income => "income"
  | .expense => "expense"

/-- Reading a persisted transaction type back. -/
def txTypeOfName (s : String) : Option TxType :=
  if s = "income" then some .income
  else if s = "expense" then some .expense
  else none

/-- JSON form of a transaction as `JSON.stringify` produces it: the declared
fields in interface order, with `undefined` optional fields omitted. -/
def Transaction.toJson (t : Transaction) : Json :=
  Json.obj
    ([("id", Json.str t.id),
      ("type", Json.str (txTypeName t.type)),
      ("amount", Json.num t.amount),
      ("currency", Json.str (currencyName t.currency)),
      ("category", Json.str (categoryName t.category)),
      ("description", Json.str t.description),
      ("date", Json.str t.date)] ++
      (match t.exchangeRateAtTime with
        | some r => [("exchangeRateAtTime", Json.num r)]
        | none => []) ++
      (match t.recurring with
        | some b => [("recurring", Json.bool b)]
        | none => []) ++
      (match t.recurringInterval with
        | some i => [("recurringInterval", Json.str (recurName i))]
        | none => []))

/-- String read of a field-access result. -/
def asStr : Option Json → Option String
  | some (Json.str s) => some s
  | _ => none

/-- Number read of a field-access result. -/
def asNum : Option Json → Option ℚ
  | some (Json.num q) => some q
  | _ => none

/-- Boolean read of a field-access result. -/
def asBool : Option Json → Option Bool
  | some (Json.bool b) => some b
  | _ => none

/-- Reading a parsed JSON value through the `Transaction` interface (the
TypeScript import path casts the parsed object and later code reads these
fields). -/
def Transaction.fromJson : Json → Option Transaction
  | Json.obj f => do
    let id ← asStr (List.lookup "id" f)
    let ty ← (asStr (List.lookup "type" f)).bind txTypeOfName
    let amount ← asNum (List.lookup "amount" f)
    let currency ← (asStr (List.lookup "currency" f)).bind currencyOfName
    let category ← (asStr (List.lookup "category" f)).bind categoryOfName
    let description ← asStr (List.lookup "description" f)
    let date ← asStr (List.lookup "date" f)
    some
      { id := id, type := ty, amount := amount, currency := currency,
        category := category, description := description, date := date,
        exchangeRateAtTime := asNum (List.lookup "exchangeRateAtTime" f),
        recurring := asBool (List.lookup "recurring" f),
        recurringInterval := (asStr (List.lookup "recurringInterval" f)).bind recurOfName }
  | _ => none

/-- Embedding of the `Debt` entity (src/types/index.ts). -/
structure Debt where
  id : String
  name : String
  totalAmount : ℚ
  paidAmount : ℚ
  currency : Currency
  interestRate : Option ℚ := none
  dueDate : Option String := none
  minimumPayment : Option ℚ := none
deriving DecidableEq, Repr

/-- JSON form of a debt. -/
def Debt.toJson (d : Debt) : Json :=
  Json.obj
    ([("id", Json.str d.id),
      ("name", Json.str d.name),
      ("totalAmount", Json.num d.totalAmount),
      ("paidAmount", Json.num d.paidAmount),
      ("currency", Json.str (currencyName d.currency))] ++
      (match d.interestRate with
        | some r => [("interestRate", Json.num r)]
        | none => []) ++
      (match d.dueDate with
        | some s => [("dueDate", Json.str s)]
        | none => []) ++
      (match d.minimumPayment with
        | some r => [("minimumPayment", Json.num r)]
        | none => []))

/-- Reading a parsed JSON value through the `Debt` interface. -/
def Debt.fromJson : Json → Option Debt
  | Json.obj f => do
    let id ← asStr (List.lookup "id" f)
    let name ← asStr (List.lookup "name" f)
    let totalAmount ← asNum (List.lookup "totalAmount" f)
    let paidAmount ← asNum (List.lookup "paidAmount" f)
    let currency ← (asStr (List.lookup "currency" f)).bind currencyOfName
    some
      { id := id, name := name, totalAmount := totalAmount,
        paidAmount := paidAmount, currency := currency,
        interestRate := asNum (List.lookup "interestRate" f),
        dueDate := asStr (List.lookup "dueDate" f),
        minimumPayment := asNum (List.lookup "minimumPayment" f) }
  | _ => none

/-- Embedding of the `SavingsGoal` entity (src/types/index.ts). -/
structure SavingsGoal where
  id : String
  name : String
  targetAmount : ℚ
  currentAmount : ℚ
  currency : Currency
  deadline : Option String := none
deriving DecidableEq, Repr

/-- JSON form of a savings goal. -/
def SavingsGoal.toJson (g : SavingsGoal) : Json :=
  Json.obj
    ([("id", Json.str g.id),
      ("name", Json.str g.name),
      ("targetAmount", Json.num g.targetAmount),
      ("currentAmount", Json.num g.currentAmount),
      ("currency", Json.str (currencyName g.currency))] ++
      (match g.deadline with
        | some s => [("deadline", Json.str s)]
        | none => []))

/-- Reading a parsed JSON value through the `SavingsGoal` interface. -/
def SavingsGoal.fromJson : Json → Option SavingsGoal
  | Json.obj f => do
    let id ← asStr (List.lookup "id" f)
    let name ← asStr (List.lookup "name" f)
    let targetAmount ← asNum (List.lookup "targetAmount" f)
    let currentAmount ← asNum (List.lookup "currentAmount" f)
    let currency ← (asStr (List.lookup "currency" f)).bind currencyOfName
    some
      { id := id, name := name, targetAmount := targetAmount,
        currentAmount := currentAmount, currency := currency,
        deadline := asStr (List.lookup "deadline" f) }
  | _ => none

/-- Embedding of the `UserSettings` entity (src/types/index.ts). -/
structure UserSettings where
  primaryCurrency : Currency
  exchangeRate : ℚ
  autoExchangeRate : Bool
  monthlyBudget : Option ℚ := none
deriving DecidableEq, Repr

/-- JSON form of the settings. -/
def UserSettings.toJson (s : UserSettings) : Json :=
  Json.obj
    ([("primaryCurrency", Json.str (currencyName s.primaryCurrency)),
      ("exchangeRate", Json.num s.exchangeRate),
      ("autoExchangeRate", Json.bool s.autoExchangeRate)] ++
      (match s.monthlyBudget with
        | some r => [("monthlyBudget", Json.num r)]
        | none => []))

/-- Reading a parsed JSON value through the `UserSettings` interface. -/
def UserSettings.fromJson : Json → Option UserSettings
  | Json.obj f => do
    let primaryCurrency ← (asStr (List.lookup "primaryCurrency" f)).bind currencyOfName
    let exchangeRate ← asNum (List.lookup "exchangeRate" f)
    let autoExchangeRate ← asBool (List.lookup "autoExchangeRate" f)
    some
      { primaryCurrency := primaryCurrency, exchangeRate := exchangeRate,
        autoExchangeRate := autoExchangeRate,
        monthlyBudget := asNum (List.lookup "monthlyBudget" f) }
  | _ => none

/-- Embedding of the persisted `AppData` document (src/types/index.ts). -/
structure AppData where
  transactions : List Transaction
  debts : List Debt
  savingsGoals : List SavingsGoal
  settings : UserSettings
deriving DecidableEq, Repr

/-- JSON form of the whole document. -/
def AppData.toJson (d : AppData) : Json :=
  Json.obj
    [("transactions", Json.arr (d.transactions.map Transaction.toJson)),
     ("debts", Json.arr (d.debts.map Debt.toJson)),
     ("savingsGoals", Json.arr (d.savingsGoals.map SavingsGoal.toJson)),
     ("settings", UserSettings.toJson d.settings)]

/-- Reading each element of a JSON list through a per-element reader. -/
def decodeList (reader : Json → Option α) : List Json → Option (List α)
  | [] => some []
  | j :: t => do
    let x ← reader j
    let xs ← decodeList reader t
    some (x :: xs)

/-- Reading an array-valued field back as a list via a per-element reader. -/
def asListOf (reader : Json → Option α) : Option Json → Option (List α)
  | some (Json.arr l) => decodeList reader l
  | _ => none

/-- Reading a parsed JSON value through the `AppData` interface. -/
def AppData.fromJson : Json → Option AppData
  | Json.obj f => do
    let transactions ← asListOf Transaction.fromJson (List.lookup "transactions" f)
    let debts ← asListOf Debt.fromJson (List.lookup "debts" f)
    let savingsGoals ← asListOf SavingsGoal.fromJson (List.lookup "savingsGoals" f)
    let settings ← (List.lookup "settings" f).bind UserSettings.fromJson
    some
      { transactions := transactions, debts := debts,
        savingsGoals := savingsGoals, settings := settings }
  | _ => none

/-- Embedding of `exportData` (src/utils/index.ts): `JSON.stringify` of the
whole document, modelled as its JSON value (the text layer is the JSON
library's own round-trip, external to this repository). -/
def exportData (data : AppData) : Json :=
  AppData.toJson data

/-- Embedding of `importData` (src/utils/index.ts): `JSON.parse` the payload,
require truthy `transactions` and `settings` properties, and return the parsed
document (the source casts it to `AppData`; the cast is modelled by reading
the fields back through the interfaces). -/
def importData (j : Json) : Option AppData :=
  match j with
  | Json.obj f =>
    if jsTruthy (List.lookup "transactions" f) && jsTruthy (List.lookup "settings" f) then
      AppData.fromJson (Json.obj f)
    else none
  | _ => none

lemma breakdownStep_partition (pc : Currency) (rate : ℚ) (acc : BreakdownAcc)
    (t : Transaction)
    (h : acc.needs + acc.wants + acc.debtPayments = acc.totalExpenses) :
    (breakdownStep pc rate acc t).needs + (breakdownStep pc rate acc t).wants +
        (breakdownStep pc rate acc t).debtPayments =
      (breakdownStep pc rate acc t).totalExpenses := by
  unfold breakdownStep
  cases t.type <;> simp only []
  · simpa using h
  · split_ifs <;> simp <;> linarith

lemma foldl_breakdown_partition (pc : Currency) (rate : ℚ)
    (l : List Transaction) :
    ∀ acc : BreakdownAcc,
      acc.needs + acc.wants + acc.debtPayments = acc.totalExpenses →
      (l.foldl (breakdownStep pc rate) acc).needs +
          (l.foldl (breakdownStep pc rate) acc).wants +
          (l.foldl (breakdownStep pc rate) acc).debtPayments =
        (l.foldl (breakdownStep pc rate) acc).totalExpenses := by
  induction l with
  | nil => intro acc h; simpa using h
  | cons t rest ih =>
    intro acc h
    simpa using ih (breakdownStep pc rate acc t)
      (breakdownStep_partition pc rate acc t h)

/-- C2: for every transaction list, month, year, primary currency and fallback
rate, the breakdown satisfies needs + wants + debtPayments = totalExpenses;
moreover an expense transaction in the window whose category is neither
`Debt Payment` nor one of the fixed needs categories contributes its whole
converted amount to `wants` (so any category outside the fixed sets,
including `Other`, is folded into wants). -/
theorem getMonthlyBreakdown_needs_wants_debt (ts : List Transaction)
    (month year : Nat) (pc : Currency) (rate : ℚ) :
    ((getMonthlyBreakdown ts month year pc rate).needs +
        (getMonthlyBreakdown ts month year pc rate).wants +
        (getMonthlyBreakdown ts month year pc rate).debtPayments =
      (getMonthlyBreakdown ts month year pc rate).totalExpenses) ∧
    (∀ t : Transaction, t.type = TxType.expense → inMonth t month year = true →
      t.category ≠ Category.DebtPayment → t.category ∉ NEEDS →
      (getMonthlyBreakdown [t] month year pc rate).wants =
        convertCurrency t.amount t.currency pc (t.exchangeRateAtTime.getD rate)) := by
  constructor
  · unfold getMonthlyBreakdown
    exact foldl_breakdown_partition pc rate _ {} (by norm_num)
  · intro t htype hmonth hdebt hneeds
    unfold getMonthlyBreakdown
    simp only [List.filter, hmonth, List.foldl]
    unfold breakdownStep
    rw [htype]
    simp only []
    split_ifs with h1 h2 <;> first
      | exact absurd h1 hdebt
      | exact absurd h2 hneeds
      | simp

/-- Concrete expense transaction with category `Other`, used as the witness
input of the bucket-partition theorem. -/
def otherExpenseTx : Transaction :=
  { id := "w2", type := .expense, amount := 30, currency := .USD,
    category := .Other, description := "misc", date := "2025-01-15" }

/-- Witness for C2 at a concrete input. -/
theorem getMonthlyBreakdown_needs_wants_debt_witness :
    ((getMonthlyBreakdown [otherExpenseTx] 0 2025 Currency.USD 4).needs +
        (getMonthlyBreakdown [otherExpenseTx] 0 2025 Currency.USD 4).wants +
        (getMonthlyBreakdown [otherExpenseTx] 0 2025 Currency.USD 4).debtPayments =
      (getMonthlyBreakdown [otherExpenseTx] 0 2025 Currency.USD 4).totalExpenses) ∧
    (getMonthlyBreakdown [otherExpenseTx] 0 2025 Currency.USD 4).wants =
      convertCurrency otherExpenseTx.amount otherExpenseTx.currency Currency.USD
        (otherExpenseTx.exchangeRateAtTime.getD 4) := by
  have h := getMonthlyBreakdown_needs_wants_debt [otherExpenseTx] 0 2025 Currency.USD 4
  exact ⟨h.1, h.2 otherExpenseTx rfl (by decide) (by decide) (by decide)⟩

lemma breakdownStep_rate_indep (pc : Currency) (r1 r2 : ℚ) (acc : BreakdownAcc)
    (t : Transaction) (h : t.exchangeRateAtTime ≠ none) :
    breakdownStep pc r1 acc t = breakdownStep pc r2 acc t := by
  obtain ⟨r, hr⟩ := Option.ne_none_iff_exists'.mp h
  unfold breakdownStep
  rw [hr]
  rfl

lemma foldl_rate_indep (pc : Currency) (r1 r2 : ℚ) (l : List Transaction)
    (h : ∀ t ∈ l, t.exchangeRateAtTime ≠ none) :
    ∀ acc : BreakdownAcc,
      l.foldl (breakdownStep pc r1) acc = l.foldl (breakdownStep pc r2) acc := by
  induction l with
  | nil => intro acc; rfl
  | cons t rest ih =>
    intro acc
    simp only [List.foldl]
    rw [breakdownStep_rate_indep pc r1 r2 acc t (h t (by simp))]
    exact ih (fun s hs => h s (by simp [hs])) _

/-- Concrete 400 PLN expense carrying a historical USD-to-PLN rate of 4. -/
def plnExpense400 : Transaction :=
  { id := "t5", type := .expense, amount := 400, currency := .PLN,
    category := .Food, description := "zakupy", date := "2025-01-15",
    exchangeRateAtTime := some 4 }

/-- C5: when every transaction carries `exchangeRateAtTime`, the breakdown
does not depend on the supplied global fallback rate at all (the
per-transaction rate takes precedence); in particular the 400 PLN expense
with a stored rate of 4 converts to 100 USD even under a global rate of 5. -/
theorem getMonthlyBreakdown_rate_precedence (ts : List Transaction)
    (month year : Nat) (pc : Currency) (r1 r2 : ℚ)
    (h : ∀ t ∈ ts, t.exchangeRateAtTime ≠ none) :
    getMonthlyBreakdown ts month year pc r1 =
        getMonthlyBreakdown ts month year pc r2 ∧
    (getMonthlyBreakdown [plnExpense400] 0 2025 Currency.USD 5).totalExpenses = 100 := by
  constructor
  · simp only [getMonthlyBreakdown]
    rw [foldl_rate_indep pc r1 r2 _ (fun t ht => h t (List.mem_of_mem_filter ht))]
  · with_unfolding_all rfl

/-- Witness for C5 at a concrete input. -/
theorem getMonthlyBreakdown_rate_precedence_witness :
    (getMonthlyBreakdown [plnExpense400] 0 2025 Currency.USD 5 =
        getMonthlyBreakdown [plnExpense400] 0 2025 Currency.USD 99) ∧
    (getMonthlyBreakdown [plnExpense400] 0 2025 Currency.USD 5).totalExpenses = 100 := by
  have h := getMonthlyBreakdown_rate_precedence [plnExpense400] 0 2025
    Currency.USD 5 99 (by decide)
  exact h

/-- C6: a breakdown with zero total income takes the special-cased terminal
branch of `getSavingsAdvice`: fixed 20% optimal rate, zero amounts and
percents, status `needs_attention`, and exactly the single income-tracking
tip, regardless of every other field. -/
theorem getSavingsAdvice_zero_income (b : BudgetBreakdown)
    (h : b.totalIncome = 0) :
    getSavingsAdvice b =
      { optimalSavingsRate := 20
        optimalSavingsAmount := 0
        currentSavingsRate := 0
        needsPercent := 0
        wantsPercent := 0
        savingsPercent := 0
        status := .needs_attention
        tips := ["Start by tracking your income to get personalized advice."] } := by
  simp [getSavingsAdvice, h]

/-- Witness for C6 at a concrete input with nonzero other fields. -/
theorem getSavingsAdvice_zero_income_witness :
    getSavingsAdvice
        { totalIncome := 0, totalExpenses := 5, needs := 1, wants := 2,
          savings := -5, debtPayments := 3, netBalance := -5 } =
      { optimalSavingsRate := 20
        optimalSavingsAmount := 0
        currentSavingsRate := 0
        needsPercent := 0
        wantsPercent := 0
        savingsPercent := 0
        status := .needs_attention
        tips := ["Start by tracking your income to get personalized advice."] } :=
  getSavingsAdvice_zero_income
    { totalIncome := 0, totalExpenses := 5, needs := 1, wants := 2,
      savings := -5, debtPayments := 3, netBalance := -5 } rfl

/-- C10: the tips list of `getSavingsAdvice` is never empty: the zero-income
branch returns one tip, and each of the four status branches starts with at
least one base tip before the conditional ones. -/
theorem getSavingsAdvice_tips_nonempty (b : BudgetBreakdown) :
    (getSavingsAdvice b).tips ≠ [] := by
  simp only [getSavingsAdvice]
  split_ifs <;> simp

/-- C7: the detected delimiter is one of the four candidates, no candidate
splits the first line into more fields than it, and every candidate listed
before it splits the line into strictly fewer fields — so ties are won by the
earlier-listed candidate, with comma first. -/
theorem detectDelimiter_first_max (line : Chars) :
    detectDelimiter line ∈ csvDelimiters ∧
    (∀ d ∈ csvDelimiters,
      splitCount line d ≤ splitCount line (detectDelimiter line)) ∧
    (∀ d ∈ csvDelimiters,
      csvDelimiters.indexOf d < csvDelimiters.indexOf (detectDelimiter line) →
      splitCount line d < splitCount line (detectDelimiter line)) := by
  have h1 : splitCount line ',' > 0 := Nat.succ_pos _
  simp only [detectDelimiter, csvDelimiters, List.foldl]
  split_ifs <;>
    refine ⟨by simp, ?_, ?_⟩ <;>
      intro d hd <;>
        fin_cases hd <;>
          simp_all [splitCount, List.indexOf, List.findIdx_cons] <;>
            omega

/-- Witness for C7 at a concrete input with a tie between comma and
semicolon. -/
theorem detectDelimiter_first_max_witness :
    detectDelimiter ("a,b;c").data ∈ csvDelimiters ∧
    splitCount ("a,b;c").data ';' ≤
      splitCount ("a,b;c").data (detectDelimiter ("a,b;c").data) ∧
    (csvDelimiters.indexOf ';' <
        csvDelimiters.indexOf (detectDelimiter ("a,b;c").data) →
      splitCount ("a,b;c").data ';' <
        splitCount ("a,b;c").data (detectDelimiter ("a,b;c").data)) := by
  have h := detectDelimiter_first_max ("a,b;c").data
  exact ⟨h.1, h.2.1 ';' (by decide), h.2.2 ';' (by decide)⟩

lemma dropWhile_head_not (p : Char → Bool) (l : Chars) :
    ∀ c, (l.dropWhile p).head? = some c → p c = false := by
  induction l with
  | nil => intro c h; simp [List.dropWhile] at h
  | cons a t ih =>
    intro c h
    by_cases hp : p a
    · rw [List.dropWhile_cons_of_pos hp] at h
      exact ih c h
    · rw [List.dropWhile_cons_of_neg hp] at h
      simp at h
      rw [← h]
      simpa using hp

lemma dropWhile_eq_self_of_head (p : Char → Bool) (l : Chars)
    (h : ∀ c, l.head? = some c → p c = false) : l.dropWhile p = l := by
  cases l with
  | nil => rfl
  | cons a t => exact List.dropWhile_cons_of_neg (by simpa using h a rfl)

lemma dropWhile_idem (p : Char → Bool) (l : Chars) :
    (l.dropWhile p).dropWhile p = l.dropWhile p :=
  dropWhile_eq_self_of_head p _ (dropWhile_head_not p l)

lemma trim_no_leading (l : Chars) :
    (trimChars l).dropWhile (fun c => isWS c) = trimChars l := by
  apply dropWhile_eq_self_of_head
  intro c hc
  unfold trimChars at hc
  set A := l.dropWhile (fun c => isWS c) with hA
  have hpre : (A.reverse.dropWhile (fun c => isWS c)).reverse.head? = some c → A.head? = some c := by
    intro h
    have hsuffix : A.reverse.dropWhile (fun c => isWS c) <:+ A.reverse :=
      List.dropWhile_suffix _
    obtain ⟨u, hu⟩ := hsuffix
    have : A = (A.reverse.dropWhile (fun c => isWS c)).reverse ++ u.reverse := by
      have := congrArg List.reverse hu
      simpa [List.reverse_append] using this.symm
    rw [this]
    cases hX : (A.reverse.dropWhile (fun c => isWS c)).reverse with
    | nil => rw [hX] at h; simp at h
    | cons x xs => rw [hX] at h; simp at h; simp [h]
  have hhead := hpre hc
  exact dropWhile_head_not _ l c (by rw [← hA]; exact hhead)

lemma trim_no_trailing (l : Chars) :
    (trimChars l).reverse.dropWhile (fun c => isWS c) = (trimChars l).reverse := by
  unfold trimChars
  rw [List.reverse_reverse]
  exact dropWhile_idem _ _

lemma trim_idem (l : Chars) : trimChars (trimChars l) = trimChars l := by
  conv_lhs => rw [trimChars]
  rw [trim_no_leading, trim_no_trailing, List.reverse_reverse]

lemma trim_eq_self_of_no_ws (l : Chars) (h : ∀ c ∈ l, isWS c = false) :
    trimChars l = l := by
  unfold trimChars
  have h1 : l.dropWhile (fun c => isWS c) = l :=
    dropWhile_eq_self_of_head _ _ (fun c hc => h c (List.mem_of_mem_head? hc))
  rw [h1]
  have h2 : l.reverse.dropWhile (fun c => isWS c) = l.reverse :=
    dropWhile_eq_self_of_head _ _ (fun c hc => h c (by
      have hm := List.mem_of_mem_head? hc
      simpa using hm))
  rw [h2, List.reverse_reverse]

lemma digit_not_ws (c : Char) (h : isDigitCh c = true) : isWS c = false := by
  simp [isDigitCh] at h
  simp [isWS]
  omega

lemma isCanonicalDate_no_ws (l : Chars) (h : isCanonicalDate l = true) :
    ∀ c ∈ l, isWS c = false := by
  unfold isCanonicalDate at h
  split at h
  · rename_i y1 y2 y3 y4 m1 m2 d1 d2
    simp only [Bool.and_eq_true] at h
    obtain ⟨⟨⟨⟨⟨⟨⟨h1, h2⟩, h3⟩, h4⟩, h5⟩, h6⟩, h7⟩, h8⟩ := h
    intro c hc
    simp only [List.mem_cons, List.not_mem_nil, or_false] at hc
    rcases hc with rfl | rfl | rfl | rfl | rfl | rfl | rfl | rfl | rfl | rfl <;>
      first
        | exact digit_not_ws _ (by assumption)
        | decide
  · exact absurd h (by simp)

lemma matchDayFirst_canonical (l r : Chars) (h : matchDayFirst l = some r) :
    isCanonicalDate r = true := by
  unfold matchDayFirst at h
  split at h
  · rename_i d1 d2 s1 m1 m2 s2 y1 y2 y3 y4
    split at h
    · rename_i hcond
      simp only [Option.some.injEq] at h
      subst h
      simp only [Bool.and_eq_true] at hcond
      simp [isCanonicalDate]
      tauto
    · exact absurd h (by simp)
  · exact absurd h (by simp)

lemma matchYearFirst_canonical (l r : Chars) (h : matchYearFirst l = some r) :
    isCanonicalDate r = true := by
  unfold matchYearFirst at h
  split at h
  · rename_i y1 y2 y3 y4 s1 m1 m2 s2 d1 d2
    split at h
    · rename_i hcond
      simp only [Option.some.injEq] at h
      subst h
      simp only [Bool.and_eq_true] at hcond
      simp [isCanonicalDate]
      tauto
    · exact absurd h (by simp)
  · exact absurd h (by simp)

lemma parseDate_of_canonical (l : Chars) (h : isCanonicalDate l = true) :
    parseDate l = l := by
  simp only [parseDate]
  rw [trim_eq_self_of_no_ws l (isCanonicalDate_no_ws l h), if_pos h]

/-- C4: date normalization is idempotent on every input string, the three
day-first example shapes normalize to the canonical form, and an
already-canonical date is returned unchanged. -/
theorem parseDate_idem (s : Chars) :
    (parseDate (parseDate s) = parseDate s) ∧
    parseDate ("15.01.2025").data = ("2025-01-15").data ∧
    parseDate ("15-01-2025").data = ("2025-01-15").data ∧
    parseDate ("15/01/2025").data = ("2025-01-15").data ∧
    (∀ u : Chars, isCanonicalDate u = true → parseDate u = u) := by
  refine ⟨?_, by decide, by decide, by decide, parseDate_of_canonical⟩
  by_cases hc : isCanonicalDate (trimChars s)
  · have h1 : parseDate s = trimChars s := by
      simp only [parseDate]
      rw [if_pos hc]
    rw [h1]
    exact parseDate_of_canonical _ hc
  · cases hd : matchDayFirst (trimChars s) with
    | some r =>
      have h1 : parseDate s = r := by
        simp only [parseDate]
        rw [if_neg hc, hd]
      rw [h1]
      exact parseDate_of_canonical r (matchDayFirst_canonical _ r hd)
    | none =>
      cases hy : matchYearFirst (trimChars s) with
      | some r =>
        have h1 : parseDate s = r := by
          simp only [parseDate]
          rw [if_neg hc, hd, hy]
        rw [h1]
        exact parseDate_of_canonical r (matchYearFirst_canonical _ r hy)
      | none =>
        have h1 : parseDate s = trimChars s := by
          simp only [parseDate]
          rw [if_neg hc, hd, hy]
        rw [h1]
        simp only [parseDate]
        rw [trim_idem, if_neg hc, hd, hy]

/-- Witness for C4 at concrete inputs. -/
theorem parseDate_idem_witness :
    parseDate (parseDate ("maybe later").data) = parseDate ("maybe later").data ∧
    parseDate ("2025-01-15").data = ("2025-01-15").data := by
  have h := parseDate_idem ("maybe later").data
  exact ⟨h.1, h.2.2.2.2 ("2025-01-15").data (by decide)⟩

/-- Normal form of the transaction `buildParsedTx` assembles once the amount
guard has passed (proof-side abbreviation of the record in the source loop). -/
def mkParsedRow (m : ColumnMapping) (fields : List Chars) (a : ℚ) :
    ParsedBankTransaction :=
  let description := idxFalsy fields m.description []
  let counterparty :=
    if 0 ≤ m.counterparty then idxFalsy fields m.counterparty [] else []
  let fullDesc :=
    if counterparty.isEmpty then description
    else counterparty ++ (" - ").data ++ description
  let rawCurrency :=
    if 0 ≤ m.currency then jsToUpper (trimChars (idxFalsy fields m.currency []))
    else []
  let currency : Currency :=
    if rawCurrency = ("PLN").data then .PLN
    else if rawCurrency = ("USD").data then .USD
    else .PLN
  let isIncome : Bool := a > 0
  let category := detectCategory fullDesc
  { date := parseDate (idxFalsy fields m.date [])
    amount := |a|
    description := fullDesc.take 200
    currency := currency
    counterparty := counterparty
    suggestedCategory :=
      if isIncome && category == Category.Other then Category.OtherIncome
      else category
    suggestedType := if isIncome then .income else .expense
    raw := fields }

/-- Normal form of the transaction `remapRow` assembles once the amount guard
has passed. -/
def mkRemappedRow (m : ColumnMapping) (raw : List Chars) (a : ℚ) :
    ParsedBankTransaction :=
  let description := idxNullish raw m.description []
  let counterparty :=
    if 0 ≤ m.counterparty then idxNullish raw m.counterparty [] else []
  let fullDesc :=
    if counterparty.isEmpty then description
    else counterparty ++ (" - ").data ++ description
  let rawCurrency :=
    if 0 ≤ m.currency then jsToUpper (trimChars (idxNullish raw m.currency []))
    else []
  let currency : Currency :=
    if rawCurrency = ("PLN").data then .PLN
    else if rawCurrency = ("USD").data then .USD
    else .PLN
  let isIncome : Bool := a > 0
  let suggestedCategory := detectCategoryFallback fullDesc
  { date := parseDateFallback (idxNullish raw m.date [])
    amount := |a|
    description := fullDesc.take 200
    currency := currency
    counterparty := counterparty
    suggestedCategory :=
      if isIncome && suggestedCategory == Category.Other then Category.OtherIncome
      else suggestedCategory
    suggestedType := if isIncome then .income else .expense
    raw := raw }

lemma buildParsedTx_some_of (m : ColumnMapping) (fields : List Chars) (a : ℚ)
    (hlen : ¬ fields.length < 2)
    (hp : parsePKOAmount (idxFalsy fields m.amount ['0']) = some a)
    (hz : ¬ a = 0) :
    buildParsedTx m fields = some (mkParsedRow m fields a) := by
  simp only [buildParsedTx]
  rw [if_neg hlen, hp]
  show (if a = 0 then none else some (mkParsedRow m fields a)) =
    some (mkParsedRow m fields a)
  rw [if_neg hz]

lemma remapRow_some_of (m : ColumnMapping) (tx : ParsedBankTransaction) (a : ℚ)
    (hp : parsePKOAmount (idxNullish tx.raw m.amount ['0']) = some a)
    (hz : ¬ a = 0) :
    remapRow m tx = some (mkRemappedRow m tx.raw a) := by
  simp only [parsePKOAmount] at hp
  simp only [remapRow]
  rw [hp]
  show (if a = 0 then none else some (mkRemappedRow m tx.raw a)) =
    some (mkRemappedRow m tx.raw a)
  rw [if_neg hz]

lemma buildParsedTx_inv (m : ColumnMapping) (fields : List Chars)
    (tx : ParsedBankTransaction) (h : buildParsedTx m fields = some tx) :
    ∃ a : ℚ, ¬ fields.length < 2 ∧
      parsePKOAmount (idxFalsy fields m.amount ['0']) = some a ∧ ¬ a = 0 ∧
      tx = mkParsedRow m fields a := by
  simp only [buildParsedTx] at h
  by_cases hlen : fields.length < 2
  · rw [if_pos hlen] at h; simp at h
  · rw [if_neg hlen] at h
    cases hp : parsePKOAmount (idxFalsy fields m.amount ['0']) with
    | none => rw [hp] at h; simp at h
    | some a =>
      rw [hp] at h
      have h2 : (if a = 0 then none else some (mkParsedRow m fields a)) = some tx := h
      by_cases hz : a = 0
      · rw [if_pos hz] at h2; simp at h2
      · rw [if_neg hz] at h2
        simp only [Option.some.injEq] at h2
        exact ⟨a, hlen, rfl, hz, h2.symm⟩

lemma parsePKOAmount_zero_lit : parsePKOAmount ['0'] = some 0 := by
  with_unfolding_all rfl

lemma idxNullish_eq_idxFalsy_empty (l : List Chars) (i : Int) :
    idxNullish l i [] = idxFalsy l i [] := by
  unfold idxNullish idxFalsy
  by_cases h0 : 0 ≤ i
  · rw [if_pos h0, if_pos h0]
    cases hv : l.get? i.toNat with
    | none => rfl
    | some v =>
      cases v with
      | nil => rfl
      | cons c cs => rfl
  · rw [if_neg h0, if_neg h0]

lemma idxNullish_eq_idxFalsy_amount (l : List Chars) (i : Int) (a : ℚ)
    (hp : parsePKOAmount (idxFalsy l i ['0']) = some a) (hz : ¬ a = 0) :
    idxNullish l i ['0'] = idxFalsy l i ['0'] := by
  unfold idxNullish idxFalsy at *
  split_ifs at hp ⊢ with h0
  · cases hv : l.get? i.toNat with
    | none => rfl
    | some v =>
      rw [hv] at hp
      cases v with
      | cons c cs => rfl
      | nil =>
        have hp2 : parsePKOAmount ['0'] = some a := hp
        rw [parsePKOAmount_zero_lit] at hp2
        simp at hp2
        exact absurd hp2.symm hz
  · rfl

lemma parseDateFallback_eq (s : Chars) : parseDateFallback s = parseDate s := rfl

/-- Agreement of two parsed transactions on every field except the suggested
category. -/
def AgreesExceptCategory (a b : ParsedBankTransaction) : Prop :=
  a.date = b.date ∧ a.amount = b.amount ∧ a.description = b.description ∧
  a.currency = b.currency ∧ a.counterparty = b.counterparty ∧
  a.suggestedType = b.suggestedType ∧ a.raw = b.raw

lemma mkRows_agree (m : ColumnMapping) (fields : List Chars) (a : ℚ) :
    AgreesExceptCategory (mkParsedRow m fields a) (mkRemappedRow m fields a) := by
  unfold AgreesExceptCategory mkParsedRow mkRemappedRow
  simp [idxNullish_eq_idxFalsy_empty, parseDateFallback_eq]

lemma row_agreement (m : ColumnMapping) (fields : List Chars)
    (tx : ParsedBankTransaction) (h : buildParsedTx m fields = some tx) :
    ∃ tx', remapRow m tx = some tx' ∧ AgreesExceptCategory tx tx' := by
  obtain ⟨a, hlen, hp, hz, htx⟩ := buildParsedTx_inv m fields tx h
  subst htx
  have hraw : (mkParsedRow m fields a).raw = fields := rfl
  have hacc := idxNullish_eq_idxFalsy_amount fields m.amount a hp hz
  refine ⟨mkRemappedRow m fields a, ?_, mkRows_agree m fields a⟩
  have := remapRow_some_of m (mkParsedRow m fields a) a (by rw [hraw, hacc]; exact hp) hz
  rwa [hraw] at this

lemma remapRow_raw (m : ColumnMapping) (tx tx' : ParsedBankTransaction)
    (h : remapRow m tx = some tx') : tx'.raw = tx.raw := by
  have h0 : (match parsePKOAmount (idxNullish tx.raw m.amount ['0']) with
      | none => none
      | some amount =>
        if amount = 0 then none
        else some (mkRemappedRow m tx.raw amount)) = some tx' := h
  cases hp : parsePKOAmount (idxNullish tx.raw m.amount ['0']) with
  | none => rw [hp] at h0; simp at h0
  | some a =>
    rw [hp] at h0
    have h2 : (if a = 0 then none else some (mkRemappedRow m tx.raw a)) = some tx' := h0
    by_cases hz : a = 0
    · rw [if_pos hz] at h2; simp at h2
    · rw [if_neg hz] at h2
      simp only [Option.some.injEq] at h2
      rw [← h2]
      rfl

lemma filterMap_forall2 {α β γ : Type} (f : α → Option β) (g : β → Option γ)
    (R : β → γ → Prop)
    (h : ∀ a b, f a = some b → ∃ c, g b = some c ∧ R b c) (l : List α) :
    List.Forall₂ R (l.filterMap f) ((l.filterMap f).filterMap g) := by
  induction l with
  | nil => simp
  | cons a rest ih =>
    cases hf : f a with
    | none => simpa [List.filterMap_cons, hf] using ih
    | some b =>
      obtain ⟨c, hg, hR⟩ := h a b hf
      simpa [List.filterMap_cons, hf, hg] using List.Forall₂.cons hR ih

/-- C1 (amended): remapping a parse result under any mapping — in particular
its own auto-detected one — re-derives rows one-for-one: the remapped list has
the same length and agrees with the originally parsed list on date, amount,
description, currency, counterparty, suggested type and raw fields; only the
suggested category may differ, because the remap path categorizes with a
reduced fallback keyword table. -/
theorem remapTransactions_agrees_except_category (csvText : Chars) :
    List.Forall₂ AgreesExceptCategory (parseCSV csvText).transactions
      (remapTransactions (parseCSV csvText) (parseCSV csvText).mapping) := by
  simp only [parseCSV, remapTransactions]
  cases hl : (jsSplitLines csvText).filter (fun l => !(trimChars l).isEmpty) with
  | nil => exact List.Forall₂.nil
  | cons first rest =>
    cases rest with
    | nil => exact List.Forall₂.nil
    | cons second tail =>
      exact filterMap_forall2 _ _ _
        (fun line tx h => row_agreement _ (parseCSVLine line _) tx h) _

/-- C1 counterexample: on the `Shell` input, remapping the parse result with
its own auto-detected mapping changes the suggested category (Transportation
under the full keyword table, Other under the fallback table), so the lists
are not equal. -/
theorem remapTransactions_ne_parse_on_shell :
    remapTransactions (parseCSV shellCsv) (parseCSV shellCsv).mapping ≠
      (parseCSV shellCsv).transactions := by
  rw [shell_remap, shell_parse]
  intro h
  have := congrArg (fun l => l.map (fun t => t.suggestedCategory)) h
  simp [shellTxOther, shellTx] at this

/-- C9: remapping never invents rows: the remapped list is at most as long as
the parsed list, and every remapped row carries the raw fields of some
originally parsed row — a CSV data row skipped during the initial parse can
never be recovered by supplying a corrected mapping. -/
theorem remapTransactions_no_new_rows (result : ParseResult)
    (mapping : ColumnMapping) :
    (remapTransactions result mapping).length ≤ result.transactions.length ∧
    ∀ t ∈ remapTransactions result mapping,
      ∃ s ∈ result.transactions, t.raw = s.raw := by
  constructor
  · exact List.length_filterMap_le _ _
  · intro t ht
    obtain ⟨s, hs, hmap⟩ := List.mem_filterMap.mp ht
    refine ⟨s, hs, ?_⟩
    exact remapRow_raw mapping s t hmap

/-- Witness for C9 at a concrete input. -/
theorem remapTransactions_no_new_rows_witness :
    (remapTransactions (parseCSV shellCsv) shellMapping).length ≤
      (parseCSV shellCsv).transactions.length ∧
    ∃ s ∈ (parseCSV shellCsv).transactions, shellTxOther.raw = s.raw := by
  have h := remapTransactions_no_new_rows (parseCSV shellCsv) shellMapping
  refine ⟨h.1, h.2 shellTxOther ?_⟩
  have he : remapTransactions (parseCSV shellCsv) shellMapping = [shellTxOther] := by
    rw [shell_parse]
    simp [remapTransactions, List.filterMap_cons, shell_remapRow]
  rw [he]
  simp

/-- Rendering of an integer digit group list with a one-character thousands
separator between groups. -/
def sepJoin (sep : Char) : List (List Char) → List Char
  | [] => []
  | [a] => a
  | a :: b :: t => a ++ sep :: sepJoin sep (b :: t)

/-- Sign prefix of a rendered amount. -/
def signChars (neg : Bool) : Chars := if neg then ['-'] else []

/-- Numeric value denoted by a sign, integer digits and fraction digits. -/
def amountVal (neg : Bool) (ds fs : List Char) : ℚ :=
  (if neg then -1 else 1) *
    ((digitsToNat ds : ℚ) + (digitsToNat fs : ℚ) / pow10 fs.length)

lemma digit_ne_dot (c : Char) (h : isDigitCh c = true) : c ≠ '.' := by
  simp [isDigitCh] at h
  intro he
  subst he
  simp at h

lemma digit_ne_comma (c : Char) (h : isDigitCh c = true) : c ≠ ',' := by
  simp [isDigitCh] at h
  intro he
  subst he
  simp at h

lemma digit_ne_minus (c : Char) (h : isDigitCh c = true) : c ≠ '-' := by
  simp [isDigitCh] at h
  intro he
  subst he
  simp at h

lemma digit_ne_plus (c : Char) (h : isDigitCh c = true) : c ≠ '+' := by
  simp [isDigitCh] at h
  intro he
  subst he
  simp at h

lemma span_digits (ds rest : Chars) (h : ∀ c ∈ ds, isDigitCh c = true)
    (hr : ∀ c, rest.head? = some c → isDigitCh c = false) :
    (ds ++ rest).takeWhile isDigitCh = ds ∧
      (ds ++ rest).dropWhile isDigitCh = rest := by
  induction ds with
  | nil =>
    simp only [List.nil_append]
    cases rest with
    | nil => exact ⟨rfl, rfl⟩
    | cons c r =>
      have hc := hr c rfl
      exact ⟨by simp [List.takeWhile_cons, hc], by simp [List.dropWhile_cons, hc]⟩
  | cons d ds' ih =>
    have hd : isDigitCh d = true := h d (by simp)
    have ih2 := ih (fun c hc => h c (by simp [hc]))
    simp only [List.cons_append, List.takeWhile_cons, List.dropWhile_cons, hd]
    exact ⟨by simp [ih2.1], by simp [ih2.2]⟩

lemma readSign_of_digit (d : Char) (rest : Chars) (hd : isDigitCh d = true) :
    readSign (d :: rest) = (false, d :: rest) := by
  show (if d = '-' then ((true, rest) : Bool × Chars)
    else if d = '+' then (false, rest) else (false, d :: rest)) = (false, d :: rest)
  rw [if_neg (digit_ne_minus d hd), if_neg (digit_ne_plus d hd)]

lemma jsParseFloat_plain (neg : Bool) (ds fs : List Char)
    (hds : ds ≠ []) (hd : ∀ c ∈ ds, isDigitCh c = true)
    (hf : ∀ c ∈ fs, isDigitCh c = true) :
    jsParseFloat (signChars neg ++ ds ++ '.' :: fs) = some (amountVal neg ds fs) := by
  obtain ⟨d0, ds', rfl⟩ : ∃ d0 ds', ds = d0 :: ds' := by
    cases ds with
    | nil => exact absurd rfl hds
    | cons a b => exact ⟨a, b, rfl⟩
  have hd0 : isDigitCh d0 = true := hd d0 (by simp)
  have hspan : List.takeWhile isDigitCh (d0 :: (ds' ++ '.' :: fs)) = d0 :: ds' ∧
      List.dropWhile isDigitCh (d0 :: (ds' ++ '.' :: fs)) = '.' :: fs := by
    have := span_digits (d0 :: ds') ('.' :: fs) hd
      (by intro c hc; simp at hc; subst hc; decide)
    simpa using this
  have hspanf : List.takeWhile isDigitCh fs = fs ∧
      List.dropWhile isDigitCh fs = [] := by
    have := span_digits fs [] hf (by intro c hc; simp at hc)
    simpa using this
  cases neg with
  | false =>
    have e0 : signChars false ++ (d0 :: ds') ++ '.' :: fs =
        d0 :: (ds' ++ '.' :: fs) := by simp [signChars]
    rw [e0]
    simp only [jsParseFloat]
    rw [List.dropWhile_cons_of_neg (by simpa using digit_not_ws d0 hd0)]
    rw [readSign_of_digit d0 _ hd0]
    simp only [hspan.1, hspan.2, hspanf.1, hspanf.2, List.takeWhile_cons,
      List.dropWhile_cons]
    simp [readExpPart, pow10Int, pow10, amountVal]
  | true =>
    have e0 : signChars true ++ (d0 :: ds') ++ '.' :: fs =
        '-' :: (d0 :: (ds' ++ '.' :: fs)) := by simp [signChars]
    rw [e0]
    simp only [jsParseFloat]
    rw [List.dropWhile_cons_of_neg (by decide)]
    rw [show readSign ('-' :: (d0 :: (ds' ++ '.' :: fs))) =
      (true, d0 :: (ds' ++ '.' :: fs)) from rfl]
    simp only [hspan.1, hspan.2, hspanf.1, hspanf.2, List.takeWhile_cons,
      List.dropWhile_cons]
    simp [readExpPart, pow10Int, pow10, amountVal]

/-- The separator-resolution step of `parsePKOAmount` as a function of the
already-whitespace-stripped string (proof-side name for the source's
`cleaned2`). -/
def pkoSepDispatch (cleaned : Chars) : Chars :=
  if containsChar cleaned ',' && containsChar cleaned '.' then
    replaceFirstChar (removeAllChar cleaned '.') ',' '.'
  else if containsChar cleaned ',' then
    replaceFirstChar cleaned ',' '.'
  else cleaned

lemma parsePKO_dispatch (raw : Chars) :
    parsePKOAmount raw = jsParseFloat (pkoSepDispatch (removeWS (trimChars raw))) :=
  rfl

lemma containsChar_append (a b : Chars) (c : Char) :
    containsChar (a ++ b) c = (containsChar a c || containsChar b c) := by
  induction a with
  | nil => simp [containsChar]
  | cons x t ih => simp [containsChar, ih, Bool.or_assoc]

lemma containsChar_eq_false (l : Chars) (c : Char) (h : ∀ d ∈ l, d ≠ c) :
    containsChar l c = false := by
  induction l with
  | nil => rfl
  | cons x t ih =>
    simp only [containsChar, Bool.or_eq_false_iff]
    exact ⟨by simpa using h x (by simp), ih (fun d hd => h d (by simp [hd]))⟩

lemma containsChar_cons_self (c : Char) (r : Chars) :
    containsChar (c :: r) c = true := by
  simp [containsChar]

lemma removeWS_eq_self (l : Chars) (h : ∀ c ∈ l, isWS c = false) :
    removeWS l = l :=
  List.filter_eq_self.mpr (fun c hc => by simp [h c hc])

lemma removeAllChar_eq_self (l : Chars) (c : Char) (h : ∀ d ∈ l, d ≠ c) :
    removeAllChar l c = l :=
  List.filter_eq_self.mpr (fun d hd => by simp [h d hd])

lemma filter_dropWhile_not (p : Char → Bool) (l : Chars) :
    (l.dropWhile p).filter (fun c => !p c) = l.filter (fun c => !p c) := by
  induction l with
  | nil => rfl
  | cons a t ih =>
    by_cases hp : p a
    · rw [List.dropWhile_cons_of_pos hp, ih, List.filter_cons]
      simp [hp]
    · rw [List.dropWhile_cons_of_neg hp]

lemma removeWS_trim (l : Chars) : removeWS (trimChars l) = removeWS l := by
  unfold trimChars removeWS
  rw [List.filter_reverse, filter_dropWhile_not, List.filter_reverse,
    List.reverse_reverse, filter_dropWhile_not]

lemma mem_signChars (c : Char) (neg : Bool) (h : c ∈ signChars neg) : c = '-' := by
  cases neg <;> simp [signChars] at h <;> simp [h]

lemma mem_sepJoin (sep : Char) (g : List (List Char)) (c : Char)
    (h : c ∈ sepJoin sep g) : c ∈ g.join ∨ c = sep := by
  induction g with
  | nil => simp [sepJoin] at h
  | cons a t ih =>
    cases t with
    | nil =>
      simp only [sepJoin] at h
      left
      simpa using h
    | cons b t2 =>
      simp only [sepJoin, List.mem_append, List.mem_cons] at h
      rcases h with h | h | h
      · left; simpa using Or.inl h
      · right; exact h
      · rcases ih (by simpa [sepJoin] using h) with hm | hs
        · left
          simp only [List.join_cons, List.mem_append]
          right
          simpa using hm
        · right; exact hs

lemma removeWS_sepJoin_space (g : List (List Char))
    (h : ∀ c ∈ g.join, isWS c = false) :
    removeWS (sepJoin ' ' g) = g.join := by
  induction g with
  | nil => rfl
  | cons a t ih =>
    cases t with
    | nil =>
      simp only [sepJoin]
      rw [removeWS_eq_self a (fun c hc => h c (by simpa using hc))]
      simp
    | cons b t2 =>
      simp only [sepJoin, removeWS, List.filter_append]
      rw [show List.filter (fun c => !isWS c) a = a from
        List.filter_eq_self.mpr (fun c hc => by
          simp [h c (by simpa using Or.inl hc)])]
      rw [show List.filter (fun c => !isWS c) (' ' :: sepJoin ' ' (b :: t2)) =
        List.filter (fun c => !isWS c) (sepJoin ' ' (b :: t2)) from by
          rw [List.filter_cons]
          simp [isWS]]
      have ih2 := ih (fun c hc => h c (by
        simp only [List.join_cons, List.mem_append]
        right
        simpa using hc))
      simp only [removeWS] at ih2
      rw [ih2]
      simp

lemma removeAllChar_sepJoin_dot (g : List (List Char))
    (h : ∀ c ∈ g.join, isDigitCh c = true) :
    removeAllChar (sepJoin '.' g) '.' = g.join := by
  induction g with
  | nil => rfl
  | cons a t ih =>
    cases t with
    | nil =>
      simp only [sepJoin]
      rw [removeAllChar_eq_self a '.' (fun c hc =>
        digit_ne_dot c (h c (by simpa using hc)))]
      simp
    | cons b t2 =>
      simp only [sepJoin, removeAllChar, List.filter_append]
      rw [show List.filter (fun d => d != '.') a = a from
        List.filter_eq_self.mpr (fun c hc => by
          simp [digit_ne_dot c (h c (by simpa using Or.inl hc))])]
      rw [show List.filter (fun d => d != '.') ('.' :: sepJoin '.' (b :: t2)) =
        List.filter (fun d => d != '.') (sepJoin '.' (b :: t2)) from by
          rw [List.filter_cons]
          simp]
      have ih2 := ih (fun c hc => h c (by
        simp only [List.join_cons, List.mem_append]
        right
        simpa using hc))
      simp only [removeAllChar] at ih2
      rw [ih2]
      simp

lemma replaceFirst_skip (a b : Chars) (x y : Char)
    (h : containsChar a x = false) :
    replaceFirstChar (a ++ b) x y = a ++ replaceFirstChar b x y := by
  induction a with
  | nil => rfl
  | cons c t ih =>
    simp only [containsChar, Bool.or_eq_false_iff] at h
    simp only [List.cons_append, replaceFirstChar]
    rw [if_neg (by simpa using h.1)]
    simp only [List.append_eq]
    rw [ih h.2]

lemma replaceFirst_head (b : Chars) (x y : Char) :
    replaceFirstChar (x :: b) x y = y :: b := by
  simp [replaceFirstChar]

lemma sepJoin_dot_no_dot (g : List (List Char))
    (h : containsChar (sepJoin '.' g) '.' = false) :
    sepJoin '.' g = g.join := by
  cases g with
  | nil => rfl
  | cons a t =>
    cases t with
    | nil => simp [sepJoin]
    | cons b t2 =>
      exfalso
      rw [show sepJoin '.' (a :: b :: t2) = a ++ '.' :: sepJoin '.' (b :: t2)
        from rfl, containsChar_append, containsChar_cons_self] at h
      simp at h

lemma containsChar_rendered (neg : Bool) (ds fs : Chars) (sep x : Char)
    (hd : ∀ c ∈ ds, isDigitCh c = true) (hf : ∀ c ∈ fs, isDigitCh c = true)
    (hminus : '-' ≠ x) (hsep : sep ≠ x)
    (hdig : ∀ c, isDigitCh c = true → c ≠ x) :
    containsChar (signChars neg ++ ds ++ sep :: fs) x = false := by
  apply containsChar_eq_false
  intro d hd'
  simp only [List.mem_append, List.mem_cons] at hd'
  rcases hd' with (hs | hm) | he | hfm
  · rw [mem_signChars d neg hs]; exact hminus
  · exact hdig d (hd d hm)
  · exact he ▸ hsep
  · exact hdig d (hf d hfm)

lemma replace_comma_eval (neg : Bool) (ds fs : Chars) (hds : ds ≠ [])
    (hd : ∀ c ∈ ds, isDigitCh c = true) (hf : ∀ c ∈ fs, isDigitCh c = true) :
    jsParseFloat (replaceFirstChar (signChars neg ++ ds ++ ',' :: fs) ',' '.') =
      some (amountVal neg ds fs) := by
  have hnoC : containsChar (signChars neg ++ ds) ',' = false := by
    apply containsChar_eq_false
    intro d hd'
    simp only [List.mem_append] at hd'
    rcases hd' with hs | hm
    · rw [mem_signChars d neg hs]; decide
    · exact digit_ne_comma d (hd d hm)
  rw [replaceFirst_skip _ _ ',' '.' hnoC, replaceFirst_head]
  exact jsParseFloat_plain neg ds fs hds hd hf

lemma dispatch_comma (neg : Bool) (ds fs : Chars) (hds : ds ≠ [])
    (hd : ∀ c ∈ ds, isDigitCh c = true) (hf : ∀ c ∈ fs, isDigitCh c = true) :
    jsParseFloat (pkoSepDispatch (signChars neg ++ ds ++ ',' :: fs)) =
      some (amountVal neg ds fs) := by
  have hcomma : containsChar (signChars neg ++ ds ++ ',' :: fs) ',' = true := by
    simp [containsChar_append, containsChar_cons_self]
  have hdot : containsChar (signChars neg ++ ds ++ ',' :: fs) '.' = false :=
    containsChar_rendered neg ds fs ',' '.' hd hf (by decide) (by decide) digit_ne_dot
  unfold pkoSepDispatch
  rw [hcomma, hdot]
  rw [if_neg (by decide : ¬ ((true && false : Bool) = true)), if_pos rfl]
  exact replace_comma_eval neg ds fs hds hd hf

lemma dispatch_dot (neg : Bool) (ds fs : Chars) (hds : ds ≠ [])
    (hd : ∀ c ∈ ds, isDigitCh c = true) (hf : ∀ c ∈ fs, isDigitCh c = true) :
    jsParseFloat (pkoSepDispatch (signChars neg ++ ds ++ '.' :: fs)) =
      some (amountVal neg ds fs) := by
  have hcomma : containsChar (signChars neg ++ ds ++ '.' :: fs) ',' = false :=
    containsChar_rendered neg ds fs '.' ',' hd hf (by decide) (by decide)
      digit_ne_comma
  unfold pkoSepDispatch
  rw [hcomma]
  rw [if_neg (by simp : ¬ ((false &&
    containsChar (signChars neg ++ ds ++ '.' :: fs) '.' : Bool) = true))]
  rw [if_neg (by simp : ¬ ((false : Bool) = true))]
  exact jsParseFloat_plain neg ds fs hds hd hf

lemma dispatch_grouped (neg : Bool) (ds fs : Chars) (g : List (List Char))
    (hg : g.join = ds) (hds : ds ≠ [])
    (hd : ∀ c ∈ ds, isDigitCh c = true) (hf : ∀ c ∈ fs, isDigitCh c = true) :
    jsParseFloat (pkoSepDispatch (signChars neg ++ sepJoin '.' g ++ ',' :: fs)) =
      some (amountVal neg ds fs) := by
  have hcomma : containsChar (signChars neg ++ sepJoin '.' g ++ ',' :: fs) ',' = true := by
    simp [containsChar_append, containsChar_cons_self]
  unfold pkoSepDispatch
  by_cases hdot : containsChar (signChars neg ++ sepJoin '.' g ++ ',' :: fs) '.' = true
  · rw [hcomma, hdot]
    rw [if_pos (show ((true && true : Bool) = true) from rfl)]
    have hrm : removeAllChar (signChars neg ++ sepJoin '.' g ++ ',' :: fs) '.' =
        signChars neg ++ ds ++ ',' :: fs := by
      simp only [removeAllChar, List.filter_append]
      rw [show List.filter (fun d => d != '.') (signChars neg) = signChars neg from
        List.filter_eq_self.mpr (fun c hc => by
          rw [mem_signChars c neg hc]; decide)]
      have h1 := removeAllChar_sepJoin_dot g (fun c hc => hd c (hg ▸ hc))
      simp only [removeAllChar] at h1
      rw [h1, hg]
      rw [show List.filter (fun d => d != '.') (',' :: fs) = ',' :: fs from
        List.filter_eq_self.mpr (fun c hc => by
          simp only [List.mem_cons] at hc
          rcases hc with rfl | hm
          · decide
          · simp [digit_ne_dot c (hf c hm)])]
    rw [hrm]
    exact replace_comma_eval neg ds fs hds hd hf
  · have hdot2 : containsChar (signChars neg ++ sepJoin '.' g ++ ',' :: fs) '.' = false := by
      simpa using hdot
    have hnosep : containsChar (sepJoin '.' g) '.' = false := by
      rw [containsChar_append, containsChar_append] at hdot2
      simp only [Bool.or_eq_false_iff] at hdot2
      exact hdot2.1.2
    rw [hcomma, hdot2]
    rw [if_neg (by decide : ¬ ((true && false : Bool) = true)), if_pos rfl]
    rw [sepJoin_dot_no_dot g hnosep, hg]
    exact replace_comma_eval neg ds fs hds hd hf

lemma rendered_no_ws (neg : Bool) (mid fs : Chars) (sep : Char)
    (hmid : ∀ c ∈ mid, isWS c = false) (hf : ∀ c ∈ fs, isDigitCh c = true)
    (hsep : isWS sep = false) :
    ∀ c ∈ signChars neg ++ mid ++ sep :: fs, isWS c = false := by
  intro c hc
  simp only [List.mem_append, List.mem_cons] at hc
  rcases hc with (hs | hm) | he | hfm
  · rw [mem_signChars c neg hs]; decide
  · exact hmid c hm
  · exact he ▸ hsep
  · exact digit_not_ws c (hf c hfm)

lemma removeWS_spaced (neg : Bool) (ds fs : Chars) (g : List (List Char))
    (sep : Char) (hg : g.join = ds)
    (hd : ∀ c ∈ ds, isDigitCh c = true) (hf : ∀ c ∈ fs, isDigitCh c = true)
    (hsep : isWS sep = false) :
    removeWS (signChars neg ++ sepJoin ' ' g ++ sep :: fs) =
      signChars neg ++ ds ++ sep :: fs := by
  unfold removeWS
  rw [List.filter_append, List.filter_append]
  rw [show List.filter (fun c => !isWS c) (signChars neg) = signChars neg from
    List.filter_eq_self.mpr (fun c hc => by rw [mem_signChars c neg hc]; decide)]
  have h1 := removeWS_sepJoin_space g (fun c hc => digit_not_ws c (hd c (hg ▸ hc)))
  simp only [removeWS] at h1
  rw [h1, hg]
  rw [show List.filter (fun c => !isWS c) (sep :: fs) = sep :: fs from
    List.filter_eq_self.mpr (fun c hc => by
      simp only [List.mem_cons] at hc
      rcases hc with rfl | hm
      · simp [hsep]
      · simp [digit_not_ws c (hf c hm)])]

/-- C3: every rendering of the same signed decimal value — comma-decimal,
dot-decimal, dot-grouped thousands with comma decimal, or space-grouped
thousands with comma or dot decimal — is parsed by `parsePKOAmount` to that
same value, sign preserved. -/
theorem parsePKOAmount_locale_invariant (neg : Bool) (ds fs : List Char)
    (g : List (List Char))
    (hds : ds ≠ []) (hd : ∀ c ∈ ds, isDigitCh c = true)
    (hfs : fs ≠ []) (hf : ∀ c ∈ fs, isDigitCh c = true)
    (hg : g.join = ds) :
    parsePKOAmount (signChars neg ++ ds ++ ',' :: fs) = some (amountVal neg ds fs) ∧
    parsePKOAmount (signChars neg ++ ds ++ '.' :: fs) = some (amountVal neg ds fs) ∧
    parsePKOAmount (signChars neg ++ sepJoin '.' g ++ ',' :: fs) =
      some (amountVal neg ds fs) ∧
    parsePKOAmount (signChars neg ++ sepJoin ' ' g ++ ',' :: fs) =
      some (amountVal neg ds fs) ∧
    parsePKOAmount (signChars neg ++ sepJoin ' ' g ++ '.' :: fs) =
      some (amountVal neg ds fs) := by
  have hdsws : ∀ c ∈ ds, isWS c = false := fun c hc => digit_not_ws c (hd c hc)
  have hmidws : ∀ c ∈ sepJoin '.' g, isWS c = false := by
    intro c hc
    rcases mem_sepJoin '.' g c hc with hm | rfl
    · exact digit_not_ws c (hd c (hg ▸ hm))
    · decide
  refine ⟨?_, ?_, ?_, ?_, ?_⟩
  · rw [parsePKO_dispatch, removeWS_trim,
      removeWS_eq_self _ (rendered_no_ws neg ds fs ',' hdsws hf (by decide))]
    exact dispatch_comma neg ds fs hds hd hf
  · rw [parsePKO_dispatch, removeWS_trim,
      removeWS_eq_self _ (rendered_no_ws neg ds fs '.' hdsws hf (by decide))]
    exact dispatch_dot neg ds fs hds hd hf
  · rw [parsePKO_dispatch, removeWS_trim,
      removeWS_eq_self _ (rendered_no_ws neg _ fs ',' hmidws hf (by decide))]
    exact dispatch_grouped neg ds fs g hg hds hd hf
  · rw [parsePKO_dispatch, removeWS_trim,
      removeWS_spaced neg ds fs g ',' hg hd hf (by decide)]
    exact dispatch_comma neg ds fs hds hd hf
  · rw [parsePKO_dispatch, removeWS_trim,
      removeWS_spaced neg ds fs g '.' hg hd hf (by decide)]
    exact dispatch_dot neg ds fs hds hd hf

/-- Witness for C3 at the three formattings of 1234.56. -/
theorem parsePKOAmount_locale_invariant_witness :
    parsePKOAmount ("1234,56").data = some ((123456 : ℚ) / 100) ∧
    parsePKOAmount ("1 234,56").data = some ((123456 : ℚ) / 100) ∧
    parsePKOAmount ("1.234,56").data = some ((123456 : ℚ) / 100) := by
  have h := parsePKOAmount_locale_invariant false ['1', '2', '3', '4'] ['5', '6']
    [['1'], ['2', '3', '4']] (by decide) (by decide) (by decide) (by decide)
    (by decide)
  have hv : amountVal false ['1', '2', '3', '4'] ['5', '6'] = (123456 : ℚ) / 100 := by
    with_unfolding_all rfl
  refine ⟨?_, ?_, ?_⟩
  · rw [show ("1234,56").data =
      signChars false ++ ['1', '2', '3', '4'] ++ ',' :: ['5', '6'] from by decide,
      ← hv]
    exact h.1
  · rw [show ("1 234,56").data =
      signChars false ++ sepJoin ' ' [['1'], ['2', '3', '4']] ++ ',' :: ['5', '6']
      from by decide, ← hv]
    exact h.2.2.2.1
  · rw [show ("1.234,56").data =
      signChars false ++ sepJoin '.' [['1'], ['2', '3', '4']] ++ ',' :: ['5', '6']
      from by decide, ← hv]
    exact h.2.2.1

lemma categoryOfName_categoryName (c : Category) :
    categoryOfName (categoryName c) = some c := by
  cases c <;> rfl

lemma recurOfName_recurName (i : RecurInterval) :
    recurOfName (recurName i) = some i := by
  cases i <;> rfl

lemma currencyOfName_currencyName (c : Currency) :
    currencyOfName (currencyName c) = some c := by
  cases c <;> rfl

lemma txTypeOfName_txTypeName (t : TxType) :
    txTypeOfName (txTypeName t) = some t := by
  cases t <;> rfl

lemma transaction_roundtrip (t : Transaction) :
    Transaction.fromJson (Transaction.toJson t) = some t := by
  obtain ⟨id, ty, amount, currency, category, description, date, ert, rec, recI⟩ := t
  cases ert <;> cases rec <;> cases recI <;>
    simp [Transaction.toJson, Transaction.fromJson, List.lookup, asStr, asNum,
      asBool, categoryOfName_categoryName, recurOfName_recurName,
      currencyOfName_currencyName, txTypeOfName_txTypeName]

lemma debt_roundtrip (d : Debt) :
    Debt.fromJson (Debt.toJson d) = some d := by
  obtain ⟨id, name, totalAmount, paidAmount, currency, ir, dd, mp⟩ := d
  cases ir <;> cases dd <;> cases mp <;>
    simp [Debt.toJson, Debt.fromJson, List.lookup, asStr, asNum, asBool,
      currencyOfName_currencyName]

lemma savingsGoal_roundtrip (g : SavingsGoal) :
    SavingsGoal.fromJson (SavingsGoal.toJson g) = some g := by
  obtain ⟨id, name, targetAmount, currentAmount, currency, deadline⟩ := g
  cases deadline <;>
    simp [SavingsGoal.toJson, SavingsGoal.fromJson, List.lookup, asStr, asNum,
      currencyOfName_currencyName]

lemma userSettings_roundtrip (s : UserSettings) :
    UserSettings.fromJson (UserSettings.toJson s) = some s := by
  obtain ⟨pc, er, aer, mb⟩ := s
  cases mb <;>
    simp [UserSettings.toJson, UserSettings.fromJson, List.lookup, asStr, asNum,
      asBool, currencyOfName_currencyName]

lemma decodeList_enc {α : Type} (enc : α → Json) (dec : Json → Option α)
    (h : ∀ x, dec (enc x) = some x) (l : List α) :
    decodeList dec (l.map enc) = some l := by
  induction l with
  | nil => rfl
  | cons x t ih =>
    rw [List.map_cons]
    simp [decodeList, h x, ih]

lemma appData_roundtrip (d : AppData) :
    AppData.fromJson (AppData.toJson d) = some d := by
  obtain ⟨ts, debts, goals, settings⟩ := d
  simp [AppData.toJson, AppData.fromJson, List.lookup, asListOf,
    decodeList_enc Transaction.toJson Transaction.fromJson transaction_roundtrip,
    decodeList_enc Debt.toJson Debt.fromJson debt_roundtrip,
    decodeList_enc SavingsGoal.toJson SavingsGoal.fromJson savingsGoal_roundtrip,
    userSettings_roundtrip]

/-- C8: importing the export of any dataset succeeds and reproduces the
dataset field-for-field: the exported JSON object has truthy `transactions`
and `settings` properties, so the minimal validation passes, and reading the
parsed object back through the `AppData` interface recovers every entity. -/
theorem importData_exportData (d : AppData) :
    importData (exportData d) = some d := by
  unfold exportData
  have h1 : importData (AppData.toJson d) = AppData.fromJson (AppData.toJson d) := by
    simp [importData, AppData.toJson, UserSettings.toJson, List.lookup, jsTruthy]
  rw [h1]
  exact appData_roundtrip d
